import Mathlib

set_option maxRecDepth 100000

/-!
Shallow embedding of the core invocation pipeline of the `ai-microcore`
repository: JSON extraction/repair (`microcore/json_parsing.py`),
streamed-response assembly (`microcore/llm/_openai_llm_v1.py`),
exception classification and the retry/caching pipeline
(`microcore/_llm_functions.py`), and content-addressed cache naming
(`microcore/file_cache.py`).

Python strings are modelled as Lean `String`s (ASCII inputs throughout),
Python `re` patterns as explicit regex ASTs interpreted by a small
backtracking engine with Python preference order (leftmost start,
left alternative first, greedy/lazy quantifiers), `json.loads`/`json.dumps`
as executable functions, `pickle.dumps` (protocol 4, the CPython default)
as a byte-level encoder for the object shapes that occur, and `hashlib.sha256`
as a full SHA-256 implementation over bytes.
-/

namespace Microcore

/-- Python whitespace characters recognized by `str.strip()` / `\s` (ASCII range). -/
def pyWsChars : List Char := [' ', '\t', '\n', '\r', '\x0b', '\x0c']

def isPyWs (c : Char) : Bool := pyWsChars.contains c

def isDigitChar (c : Char) : Bool := '0' ≤ c ∧ c ≤ '9'

/-- `str.strip()` with default argument: remove leading/trailing whitespace. -/
def pyStrip (s : String) : String :=
  ⟨(s.data.dropWhile isPyWs).reverse.dropWhile isPyWs |>.reverse⟩

/-- `str.strip(chars)`: remove leading/trailing characters from the given set. -/
def pyStripChars (s chars : String) : String :=
  ⟨(s.data.dropWhile chars.data.contains).reverse.dropWhile chars.data.contains |>.reverse⟩

/-- Does `p` occur in `cs` starting exactly at index `pos`? -/
def listPrefixAt (cs : List Char) (pos : Nat) (p : List Char) : Bool :=
  (cs.drop pos).take p.length == p

/-- Python `s.startswith(p)` (kernel-reducible). -/
def strStartsWith (s p : String) : Bool := listPrefixAt s.data 0 p.data

/-- Python `s.endswith(p)` (kernel-reducible). -/
def strEndsWith (s p : String) : Bool := s.data.drop (s.data.length - p.data.length) == p.data

/-- Python `sub in s` (substring containment). -/
def strContains (s sub : String) : Bool :=
  (List.range (s.length + 1)).any (fun i => listPrefixAt s.data i sub.data)

/-- Python `s.find(sub)`: index of the leftmost occurrence, `none` for -1. -/
def strFind (s sub : String) : Option Nat :=
  (List.range (s.length + 1)).find? (fun i => listPrefixAt s.data i sub.data)

/-- Python `s.find(sub, start)`. -/
def strFindFrom (s sub : String) (start : Nat) : Option Nat :=
  ((List.range (s.length + 1)).filter (fun i => start ≤ i)).find?
    (fun i => listPrefixAt s.data i sub.data)

/-- Python `s.rfind(sub, start)`: rightmost occurrence index `≥ start`. -/
def strRFindFrom (s sub : String) (start : Nat) : Option Nat :=
  (((List.range (s.length + 1)).filter (fun i => start ≤ i)).filter
    (fun i => listPrefixAt s.data i sub.data)).getLast?

/-- Python `s.rfind(sub, None, end)`: rightmost occurrence with match start `< end`
(the Python slice bound applies to the end of the match; for the one call site,
`input_string.rfind(block_begin, None, end)`, CPython requires the whole match
inside `s[:end]`, i.e. start + len(sub) ≤ end). -/
def strRFindBefore (s sub : String) (stop : Nat) : Option Nat :=
  (((List.range (s.length + 1)).filter (fun i => i + sub.length ≤ stop)).filter
    (fun i => listPrefixAt s.data i sub.data)).getLast?

/-- Python `s.replace(old, new)`: left-to-right non-overlapping replacement. -/
def pyReplaceAux : Nat → List Char → List Char → List Char → List Char
  | 0, cs, _, _ => cs
  | _, [], _, _ => []
  | fuel + 1, c :: cs, old, new =>
    if old ≠ [] ∧ listPrefixAt (c :: cs) 0 old then
      new ++ pyReplaceAux fuel ((c :: cs).drop old.length) old new
    else
      c :: pyReplaceAux fuel cs old new

def pyReplace (s old new : String) : String :=
  ⟨pyReplaceAux (s.length + 1) s.data old.data new.data⟩

/-- Python slice `s[a:b]` with non-negative bounds. -/
def pySlice (s : String) (a b : Nat) : String :=
  ⟨(s.data.take b).drop a⟩

/-- Python slice `s[a:-k]` (drop `a` from the front, `k` from the back). -/
def pySliceNeg (s : String) (a k : Nat) : String :=
  ⟨(s.data.take (s.length - k)).drop a⟩

/-- Python `str.isdigit()` (ASCII digits; nonempty). -/
def pyIsDigit (s : String) : Bool :=
  s.data ≠ [] ∧ s.data.all isDigitChar

/-! ## A small regex engine

Python `re` patterns used by the repository are transcribed to this AST and
interpreted with Python's preference order: alternation prefers the left
branch, `*`/`+` are greedy, `*?` is lazy, and the leftmost-starting match
wins.  Lookbehinds are fixed-width (as Python requires).  Character classes
are given by explicit character sets (`\d`, `\s` in their ASCII range, which
covers every input considered here). -/

inductive RE where
  | eps : RE
  | lit : String → RE
  | cls : String → RE
  | ncls : String → RE
  | dot : RE
  | wsp : RE
  | seqr : RE → RE → RE
  | altr : RE → RE → RE
  | star : RE → RE
  | starL : RE → RE
  | la : RE → RE
  | lb : RE → Nat → RE
  | grp : Nat → RE → RE
deriving Repr

/-- Sequence of several regexes. -/
def REseq (rs : List RE) : RE := rs.foldr RE.seqr RE.eps

/-- Alternation of several regexes (left preferred). -/
def REalt (rs : List RE) : RE :=
  match rs with
  | [] => RE.ncls ""
  | [r] => r
  | r :: rest => RE.altr r (REalt rest)

/-- `r+` (one or more, greedy). -/
def REplus (r : RE) : RE := RE.seqr r (RE.star r)

/-- Capture spans `(groupIndex, start, end)`, most recent first. -/
abbrev Caps := List (Nat × Nat × Nat)

/-- All ways `re` can match in `cs` starting at `pos`, as `(endPos, captures)`
in Python preference order.  `fuel` bounds the recursion depth; every
recursive call decrements it, star unfoldings strictly advance the position,
and the transcribed patterns have bounded nesting, so the allowance used by
`reMatchAt` below is ample for the inputs considered (validated against
CPython `re` on the concrete strings the theorems evaluate). -/
def reMs : Nat → RE → List Char → Nat → List (Nat × Caps)
  | 0, _, _, _ => []
  | fuel + 1, re, cs, pos =>
    match re with
    | .eps => [(pos, [])]
    | .lit s => if listPrefixAt cs pos s.data then [(pos + s.length, [])] else []
    | .cls s =>
      match cs.get? pos with
      | some c => if s.data.contains c then [(pos + 1, [])] else []
      | none => []
    | .ncls s =>
      match cs.get? pos with
      | some c => if s.data.contains c then [] else [(pos + 1, [])]
      | none => []
    | .dot =>
      match cs.get? pos with
      | some c => if c = '\n' then [] else [(pos + 1, [])]
      | none => []
    | .wsp =>
      match cs.get? pos with
      | some c => if isPyWs c then [(pos + 1, [])] else []
      | none => []
    | .seqr a b =>
      (reMs fuel a cs pos).flatMap (fun pc =>
        (reMs fuel b cs pc.1).map (fun qc => (qc.1, qc.2 ++ pc.2)))
    | .altr a b => reMs fuel a cs pos ++ reMs fuel b cs pos
    | .star a =>
      ((reMs fuel a cs pos).flatMap (fun pc =>
        if pc.1 ≤ pos then [] else
          (reMs fuel (.star a) cs pc.1).map (fun qc => (qc.1, qc.2 ++ pc.2)))) ++
        [(pos, [])]
    | .starL a =>
      (pos, []) :: ((reMs fuel a cs pos).flatMap (fun pc =>
        if pc.1 ≤ pos then [] else
          (reMs fuel (.starL a) cs pc.1).map (fun qc => (qc.1, qc.2 ++ pc.2))))
    | .la a => if reMs fuel a cs pos ≠ [] then [(pos, [])] else []
    | .lb a w =>
      if w ≤ pos ∧ (reMs fuel a cs (pos - w)).any (fun pc => pc.1 = pos) then
        [(pos, [])]
      else []
    | .grp i a => (reMs fuel a cs pos).map (fun pc => (pc.1, (i, pos, pc.1) :: pc.2))

/-- Preferred match of `re` at position `pos` (end position and captures). -/
def reMatchAt (re : RE) (cs : List Char) (pos : Nat) : Option (Nat × Caps) :=
  (reMs ((cs.length + 2) * 64 + 64) re cs pos).head?

/-- Python `re.search`: leftmost-starting preferred match, as
`(start, end, captures)`. -/
def reSearch (re : RE) (s : String) : Option (Nat × Nat × Caps) :=
  let cs := s.data
  (List.range (cs.length + 1)).firstM (fun i =>
    (reMatchAt re cs i).map (fun ec => (i, ec.1, ec.2)))

/-- Python `re.sub` scanning loop: replace every non-overlapping match of `re`
by the literal string `repl` (none of the transcribed replacements use
backreferences), scanning left to right; an empty match is replaced and the
scan advances one character (Python ≥ 3.7 semantics). -/
def reSubAux (re : RE) (repl : List Char) (cs : List Char) :
    Nat → Nat → List Char
  | 0, _ => []
  | fuel + 1, pos =>
    if pos < cs.length ∨ pos = cs.length then
      match reMatchAt re cs pos with
      | some (e, _) =>
        if e = pos then
          match cs.get? pos with
          | some c => repl ++ (c :: reSubAux re repl cs fuel (pos + 1))
          | none => repl
        else repl ++ reSubAux re repl cs fuel e
      | none =>
        match cs.get? pos with
        | some c => c :: reSubAux re repl cs fuel (pos + 1)
        | none => []
    else []

def reSub (re : RE) (repl : String) (s : String) : String :=
  ⟨reSubAux re repl.data s.data (s.length + 2) 0⟩

/-- Group extraction: `match.group(i)` as a substring of `s`. -/
def capGroup (s : String) (caps : Caps) (i : Nat) : Option String :=
  (caps.find? (fun c => c.1 = i)).map (fun c => pySlice s c.2.1 c.2.2)

/-- Parse a nonempty all-digit string as a `Nat` (Python `int(...)` on `\d+`). -/
def digitsToNat (s : String) : Nat :=
  s.data.foldl (fun acc c => acc * 10 + (c.toNat - '0'.toNat)) 0

end Microcore

namespace Microcore

/-! ## `microcore/json_parsing.py`: the transcribed `fix_json` patterns

Each `re*` definition below transcribes one regex literal from
`fix_json` in `src/microcore/json_parsing.py` (braces written `\x7b`/`\x7d`,
apostrophes `\x27`).  Lookbehind widths are the fixed widths Python assigns
to each alternative. -/

/-- `json_obj_before`: `((?<=\{)|(?<=["\d]\,)|(?<=null\,)|(?<=true\,)|(?<=false\,)|(?<=["\d])|(?<=null)|(?<=true)|(?<=false))\s*` -/
def reJsonObjBefore : RE :=
  RE.seqr (REalt [
    RE.lb (RE.lit ("\x7b")) 1,
    RE.lb (RE.seqr (RE.cls ("\"0123456789")) (RE.lit (","))) 2,
    RE.lb (RE.lit ("null,")) 5,
    RE.lb (RE.lit ("true,")) 5,
    RE.lb (RE.lit ("false,")) 6,
    RE.lb (RE.cls ("\"0123456789")) 1,
    RE.lb (RE.lit ("null")) 4,
    RE.lb (RE.lit ("true")) 4,
    RE.lb (RE.lit ("false")) 5]) (RE.star RE.wsp)

/-- `json_obj_after`: `\s*((?=\})|(?="[^"\n]+"\s*\:\s*))` -/
def reJsonObjAfter : RE :=
  RE.seqr (RE.star RE.wsp) (RE.altr
    (RE.la (RE.lit ("\x7d")))
    (RE.la (REseq [RE.lit ("\""), REplus (RE.ncls ("\"\n")), RE.lit ("\""),
      RE.star RE.wsp, RE.lit (":"), RE.star RE.wsp])))

/-- `json_list_before`: like `json_obj_before` with `(?<=\[)` instead of `(?<=\{)`. -/
def reJsonListBefore : RE :=
  RE.seqr (REalt [
    RE.lb (RE.lit ("[")) 1,
    RE.lb (RE.seqr (RE.cls ("\"0123456789")) (RE.lit (","))) 2,
    RE.lb (RE.lit ("null,")) 5,
    RE.lb (RE.lit ("true,")) 5,
    RE.lb (RE.lit ("false,")) 6,
    RE.lb (RE.cls ("\"0123456789")) 1,
    RE.lb (RE.lit ("null")) 4,
    RE.lb (RE.lit ("true")) 4,
    RE.lb (RE.lit ("false")) 5]) (RE.star RE.wsp)

/-- `json_list_after`: `\s*((?=[\]"\d])|(?=true)|(?=false)|(?=null))` -/
def reJsonListAfter : RE :=
  RE.seqr (RE.star RE.wsp) (REalt [
    RE.la (RE.cls ("]\"0123456789")),
    RE.la (RE.lit ("true")),
    RE.la (RE.lit ("false")),
    RE.la (RE.lit ("null"))])

/-- `json_before = (json_obj_before|json_list_before)` -/
def reJsonBefore : RE := RE.altr reJsonObjBefore reJsonListBefore

/-- `json_after = (json_obj_after|json_list_after)` -/
def reJsonAfter : RE := RE.altr reJsonObjAfter reJsonListAfter

/-- `between_lines(p) = (json_obj_before p json_obj_after)|(json_list_before p json_list_after)` -/
def reBetweenLines (p : RE) : RE :=
  RE.altr (REseq [reJsonObjBefore, p, reJsonObjAfter])
    (REseq [reJsonListBefore, p, reJsonListAfter])

/-- `comment = (//|\#)[^\n]*\n` -/
def reComment : RE :=
  REseq [RE.altr (RE.lit ("//")) (RE.lit ("#")), RE.star (RE.ncls ("\n")), RE.lit ("\n")]

/-- Step 1 pattern: `between_lines((comment)+)`. -/
def reFixStep1 : RE := reBetweenLines (REplus reComment)

/-- Step 2 pattern: `between_lines(\.\.\.\n)`. -/
def reFixStep2 : RE := reBetweenLines (RE.lit ("...\n"))

/-- Step 3 pattern: `"\s*\n\s*"` (missing comma between strings on separate lines). -/
def reFixStep3 : RE :=
  REseq [RE.lit ("\""), RE.star RE.wsp, RE.lit ("\n"), RE.star RE.wsp, RE.lit ("\"")]

/-- Step 4 pattern: `((?<=["\d])|(?<=null)|(?<=true)|(?<=false))\s*\,(?=\s*[\}\]])`
(redundant trailing comma). -/
def reFixStep4 : RE :=
  REseq [REalt [
      RE.lb (RE.cls ("\"0123456789")) 1,
      RE.lb (RE.lit ("null")) 4,
      RE.lb (RE.lit ("true")) 4,
      RE.lb (RE.lit ("false")) 5],
    RE.star RE.wsp, RE.lit (","),
    RE.la (RE.seqr (RE.star RE.wsp) (RE.cls ("\x7d]")))]

/-- Step 5, first sub: `({json_before}\')|(\'{json_after})`. -/
def reFixStep5a : RE :=
  RE.altr (RE.seqr reJsonBefore (RE.lit ("\x27"))) (RE.seqr (RE.lit ("\x27")) reJsonAfter)

/-- Step 5, second sub: `\'\s*\,\s*{json_after}`. -/
def reFixStep5b : RE :=
  REseq [RE.lit ("\x27"), RE.star RE.wsp, RE.lit (","), RE.star RE.wsp, reJsonAfter]

/-- Step 5, third sub: `\'\s*\:\s*(?=[\'\"])`. -/
def reFixStep5c : RE :=
  REseq [RE.lit ("\x27"), RE.star RE.wsp, RE.lit (":"), RE.star RE.wsp,
    RE.la (RE.cls ("\x27\""))]

/-- Step 5, fourth sub: `(?<=[\'\"])\s*\:\s*\'`. -/
def reFixStep5d : RE :=
  REseq [RE.lb (RE.cls ("\x27\"")) 1, RE.star RE.wsp, RE.lit (":"), RE.star RE.wsp,
    RE.lit ("\x27")]

/-- Step 6 pattern for one pythonic literal: `\"\:\s*{pythonic}(?=\s*[\,\}])`. -/
def reFixStep6 (pythonic : String) : RE :=
  REseq [RE.lit ("\":"), RE.star RE.wsp, RE.lit (pythonic),
    RE.la (RE.seqr (RE.star RE.wsp) (RE.cls (",\x7d")))]

/-- Step 7 pattern: `\/\*[^\n]*\*\/` (inline `/* ... */` comments). -/
def reFixStep7 : RE :=
  REseq [RE.lit ("/*"), RE.star (RE.ncls ("\n")), RE.lit ("*/")]

/-! ## `json.loads` / `json.dumps(obj, indent=4)` -/

/-- Python values as produced by `json.loads` (JSON object keys are strings).
Floats are carried as their source lexeme: no claim below evaluates float
arithmetic or float formatting. -/
inductive PyVal where
  | vstr (s : String)
  | vint (n : Int)
  | vfloat (raw : String)
  | vbool (b : Bool)
  | vnull
  | vlist (xs : List PyVal)
  | vdict (xs : List (String × PyVal))
deriving Repr

/-- JSON inter-token whitespace accepted by Python's `json` module. -/
def isJsonWs (c : Char) : Bool := c ∈ [' ', '\t', '\n', '\r']

def skipJsonWs (cs : List Char) : List Char := cs.dropWhile isJsonWs

def hexVal (c : Char) : Option Nat :=
  if isDigitChar c then some (c.toNat - '0'.toNat)
  else if 'a' ≤ c ∧ c ≤ 'f' then some (c.toNat - 'a'.toNat + 10)
  else if 'A' ≤ c ∧ c ≤ 'F' then some (c.toNat - 'A'.toNat + 10)
  else none

/-- Parse the body of a JSON string after the opening quote (strict mode: raw
control characters are rejected; `\uXXXX` escapes are decoded and surrogate
pairs combined; lone surrogates, unrepresentable in a Lean `Char`, do not
occur in the inputs considered). -/
def jsonStrBody (fuel : Nat) (cs : List Char) (acc : List Char) :
    Option (String × List Char) :=
  match fuel, cs with
  | 0, _ => none
  | _, [] => none
  | fuelp + 1, c :: rest =>
    if c = '"' then some (⟨acc.reverse⟩, rest)
    else if c = '\\' then
      match rest with
      | '"' :: r => jsonStrBody fuelp r ('"' :: acc)
      | '\\' :: r => jsonStrBody fuelp r ('\\' :: acc)
      | '/' :: r => jsonStrBody fuelp r ('/' :: acc)
      | 'b' :: r => jsonStrBody fuelp r ('\x08' :: acc)
      | 'f' :: r => jsonStrBody fuelp r ('\x0c' :: acc)
      | 'n' :: r => jsonStrBody fuelp r ('\n' :: acc)
      | 'r' :: r => jsonStrBody fuelp r ('\r' :: acc)
      | 't' :: r => jsonStrBody fuelp r ('\t' :: acc)
      | 'u' :: a :: b :: cc :: d :: r =>
        match hexVal a, hexVal b, hexVal cc, hexVal d with
        | some ha, some hb, some hc, some hd =>
          let n := ((ha * 16 + hb) * 16 + hc) * 16 + hd
          if 0xd800 ≤ n ∧ n ≤ 0xdbff then
            match r with
            | '\\' :: 'u' :: a2 :: b2 :: c2 :: d2 :: r2 =>
              match hexVal a2, hexVal b2, hexVal c2, hexVal d2 with
              | some ha2, some hb2, some hc2, some hd2 =>
                let m := ((ha2 * 16 + hb2) * 16 + hc2) * 16 + hd2
                if 0xdc00 ≤ m ∧ m ≤ 0xdfff then
                  jsonStrBody fuelp r2
                    (Char.ofNat (0x10000 + (n - 0xd800) * 0x400 + (m - 0xdc00)) :: acc)
                else none
              | _, _, _, _ => none
            | _ => none
          else if 0xdc00 ≤ n ∧ n ≤ 0xdfff then none
          else jsonStrBody fuelp r (Char.ofNat n :: acc)
        | _, _, _, _ => none
      | _ => none
    else if c.toNat < 0x20 then none
    else jsonStrBody fuelp rest (c :: acc)

/-- One-or-more ASCII digits; returns digits and rest. -/
def takeDigits (cs : List Char) : List Char × List Char :=
  (cs.takeWhile isDigitChar, cs.dropWhile isDigitChar)

/-- Parse a JSON number per Python's `NUMBER_RE`:
`(-?(?:0|[1-9]\d*))(\.\d+)?([eE][-+]?\d+)?`; integers (no fraction/exponent)
become `vint`, others keep their lexeme as `vfloat`. -/
def jsonNumber (cs : List Char) : Option (PyVal × List Char) :=
  let (sign, cs1) : (Bool × List Char) :=
    match cs with
    | '-' :: r => (true, r)
    | r => (false, r)
  match cs1 with
  | c :: r =>
    if ¬ isDigitChar c then none
    else
      let (intDigits, rest1) :=
        if c = '0' then ([c], r) else takeDigits (c :: r)
      let (fracPart, rest2) :=
        match rest1 with
        | '.' :: r2 =>
          let (ds, r3) := takeDigits r2
          if ds = [] then (([] : List Char), rest1) else ('.' :: ds, r3)
        | _ => ([], rest1)
      let (expPart, rest3) :=
        match rest2 with
        | e :: r2 =>
          if e = 'e' ∨ e = 'E' then
            let (es, r3) : (List Char × List Char) :=
              match r2 with
              | s :: r4 => if s = '+' ∨ s = '-' then ([s], r4) else ([], r2)
              | [] => ([], r2)
            let (ds, r5) := takeDigits r3
            if ds = [] then (([] : List Char), rest2) else (e :: (es ++ ds), r5)
          else ([], rest2)
        | _ => ([], rest2)
      let lexeme : List Char := (if sign then ['-'] else []) ++ intDigits ++ fracPart ++ expPart
      if fracPart = [] ∧ expPart = [] then
        let n : Int := Int.ofNat (digitsToNat ⟨intDigits⟩)
        some (.vint (if sign then -n else n), rest3)
      else some (.vfloat ⟨lexeme⟩, rest3)
  | [] => none

/-- Insert into a Python dict: an existing key keeps its position, its value is
replaced; a new key is appended. -/
def dictInsert (xs : List (String × PyVal)) (k : String) (v : PyVal) :
    List (String × PyVal) :=
  if xs.any (fun kv => kv.1 = k) then
    xs.map (fun kv => if kv.1 = k then (k, v) else kv)
  else xs ++ [(k, v)]

mutual

/-- Parse one JSON value starting at `cs` (no leading whitespace). -/
def jsonVal (fuel : Nat) (cs : List Char) : Option (PyVal × List Char) :=
  match fuel with
  | 0 => none
  | fuelp + 1 =>
    match cs with
    | '\x7b' :: rest =>
      let rest := skipJsonWs rest
      match rest with
      | '\x7d' :: r => some (.vdict [], r)
      | _ => jsonMembers fuelp rest []
    | '[' :: rest =>
      let rest := skipJsonWs rest
      match rest with
      | ']' :: r => some (.vlist [], r)
      | _ => jsonItems fuelp rest []
    | '"' :: rest =>
      match jsonStrBody (rest.length + 1) rest [] with
      | some (s, r) => some (.vstr s, r)
      | none => none
    | 't' :: _ =>
      if listPrefixAt cs 0 ['t','r','u','e'] then some (.vbool true, cs.drop 4) else none
    | 'f' :: _ =>
      if listPrefixAt cs 0 ['f','a','l','s','e'] then some (.vbool false, cs.drop 5) else none
    | 'n' :: _ =>
      if listPrefixAt cs 0 ['n','u','l','l'] then some (.vnull, cs.drop 4) else none
    | 'N' :: _ =>
      if listPrefixAt cs 0 ['N','a','N'] then some (.vfloat ("NaN"), cs.drop 3) else none
    | 'I' :: _ =>
      if listPrefixAt cs 0 ("Infinity".data) then
        some (.vfloat ("Infinity"), cs.drop 8)
      else none
    | '-' :: 'I' :: _ =>
      if listPrefixAt cs 0 ("-Infinity".data) then
        some (.vfloat ("-Infinity"), cs.drop 9)
      else none
    | _ => jsonNumber cs

/-- Parse object members (after `{` and whitespace, first member expected). -/
def jsonMembers (fuel : Nat) (cs : List Char) (acc : List (String × PyVal)) :
    Option (PyVal × List Char) :=
  match fuel with
  | 0 => none
  | fuelp + 1 =>
    match cs with
    | '"' :: rest =>
      match jsonStrBody (rest.length + 1) rest [] with
      | some (k, r) =>
        let r := skipJsonWs r
        match r with
        | ':' :: r2 =>
          match jsonVal fuelp (skipJsonWs r2) with
          | some (v, r3) =>
            let acc := dictInsert acc k v
            let r4 := skipJsonWs r3
            match r4 with
            | ',' :: r5 => jsonMembers fuelp (skipJsonWs r5) acc
            | '\x7d' :: r5 => some (.vdict acc, r5)
            | _ => none
          | none => none
        | _ => none
      | none => none
    | _ => none

/-- Parse array items (after `[` and whitespace, first item expected). -/
def jsonItems (fuel : Nat) (cs : List Char) (acc : List PyVal) :
    Option (PyVal × List Char) :=
  match fuel with
  | 0 => none
  | fuelp + 1 =>
    match jsonVal fuelp cs with
    | some (v, r) =>
      let r2 := skipJsonWs r
      match r2 with
      | ',' :: r3 => jsonItems fuelp (skipJsonWs r3) (acc ++ [v])
      | ']' :: r3 => some (.vlist (acc ++ [v]), r3)
      | _ => none
    | none => none

end

/-- Python `json.loads`: skip surrounding whitespace, parse one value, reject
trailing data (`none` models `json.JSONDecodeError`). -/
def jsonLoads (s : String) : Option PyVal :=
  match jsonVal (4 * s.length + 8) (skipJsonWs s.data) with
  | some (v, rest) => if skipJsonWs rest = [] then some v else none
  | none => none

/-- Hex digits of `n` to exactly `k` nibbles, uppercase (for `\uXXXX`). -/
def hexNibblesUpper (n k : Nat) : List Char :=
  (List.range k).reverse.map (fun i =>
    let d := n / 16 ^ i % 16
    if d < 10 then Char.ofNat ('0'.toNat + d) else Char.ofNat ('a'.toNat + d - 10))

/-- `json.dumps` escaping of one character (`ensure_ascii=True`). -/
def jsonEscapeChar (c : Char) : List Char :=
  if c = '"' then ['\\', '"']
  else if c = '\\' then ['\\', '\\']
  else if c = '\n' then ['\\', 'n']
  else if c = '\r' then ['\\', 'r']
  else if c = '\t' then ['\\', 't']
  else if c = '\x08' then ['\\', 'b']
  else if c = '\x0c' then ['\\', 'f']
  else if c.toNat < 0x20 ∨ 0x7e < c.toNat then
    if c.toNat ≤ 0xffff then '\\' :: 'u' :: hexNibblesUpper c.toNat 4
    else
      let m := c.toNat - 0x10000
      ('\\' :: 'u' :: hexNibblesUpper (0xd800 + m / 0x400) 4) ++
        ('\\' :: 'u' :: hexNibblesUpper (0xdc00 + m % 0x400) 4)
  else [c]

def jsonEncodeStr (s : String) : String :=
  ⟨'"' :: s.data.flatMap jsonEscapeChar ++ ['"']⟩

def indentSpaces (level : Nat) : String := ⟨List.replicate (4 * level) ' '⟩

mutual

/-- `json.dumps(v, indent=4)` (default separators with indent: `(",", ": ")`;
for a `vfloat` the stored lexeme stands in for `repr(float)`, which no claim
evaluates). -/
def jsonDumps4 (v : PyVal) (level : Nat) : String :=
  match v with
  | .vstr s => jsonEncodeStr s
  | .vint n => toString n
  | .vfloat raw => raw
  | .vbool b => if b then ("true") else ("false")
  | .vnull => ("null")
  | .vlist [] => ("[]")
  | .vlist xs =>
    ("[\n") ++ String.intercalate (",\n") (jsonDumpsItems xs (level + 1)) ++
      ("\n") ++ indentSpaces level ++ ("]")
  | .vdict [] => ("\x7b\x7d")
  | .vdict xs =>
    ("\x7b\n") ++ String.intercalate (",\n") (jsonDumpsPairs xs (level + 1)) ++
      ("\n") ++ indentSpaces level ++ ("\x7d")

/-- Indented renderings of array items. -/
def jsonDumpsItems (xs : List PyVal) (level : Nat) : List String :=
  match xs with
  | [] => []
  | x :: rest => (indentSpaces level ++ jsonDumps4 x level) :: jsonDumpsItems rest level

/-- Indented renderings of object entries. -/
def jsonDumpsPairs (xs : List (String × PyVal)) (level : Nat) : List String :=
  match xs with
  | [] => []
  | kv :: rest =>
    (indentSpaces level ++ jsonEncodeStr kv.1 ++ (": ") ++ jsonDumps4 kv.2 level) ::
      jsonDumpsPairs rest level

end

end Microcore

namespace Microcore

/-! ## `microcore/json_parsing.py` -/

/-- Digit run with single underscores between digits (Python numeric literal
grammar used by `float(...)`); consumes the run after an initial digit. -/
def digitRunRest : List Char → List Char
  | '_' :: d :: rest => if isDigitChar d then digitRunRest rest else '_' :: d :: rest
  | d :: rest => if isDigitChar d then digitRunRest rest else d :: rest
  | [] => []

/-- Consume one digit group (`digit (("_")? digit)*`); `none` if absent. -/
def digitGroup (cs : List Char) : Option (List Char) :=
  match cs with
  | c :: rest => if isDigitChar c then some (digitRunRest rest) else none
  | [] => none

def floatExpTail (cs : List Char) : Bool :=
  let cs1 :=
    match cs with
    | '+' :: r => r
    | '-' :: r => r
    | r => r
  match digitGroup cs1 with
  | some [] => true
  | _ => false

def floatAfterMantissa : List Char → Bool
  | [] => true
  | 'e' :: r => floatExpTail r
  | 'E' :: r => floatExpTail r
  | _ => false

/-- Does Python `float(s)` succeed?  (Sign, `inf`/`infinity`/`nan`
case-insensitively, or a decimal literal with optional fraction/exponent and
single underscores between digits.) -/
def pyFloatOk (s : String) : Bool :=
  let cs0 := (pyStrip s).data
  let cs :=
    match cs0 with
    | '+' :: r => r
    | '-' :: r => r
    | r => r
  let low := cs.map Char.toLower
  if low = ("inf").data ∨ low = ("infinity").data ∨ low = ("nan").data then true
  else
    match digitGroup cs with
    | some rest =>
      let rest2 :=
        match rest with
        | '.' :: r =>
          match digitGroup r with
          | some r2 => r2
          | none => r
        | r => r
      floatAfterMantissa rest2
    | none =>
      match cs with
      | '.' :: r =>
        match digitGroup r with
        | some r2 => floatAfterMantissa r2
        | none => false
      | _ => false

/-- `safe_remove_outer_json_wrapper` from `json_parsing.py`. -/
def safe_remove_outer_json_wrapper (s : String) : String :=
  if strEndsWith s ("```") then
    if strStartsWith s ("```json") then pyStrip (pySliceNeg s 7 3)
    else if strStartsWith s ("```") then pyStrip (pySliceNeg s 3 3)
    else s
  else s

/-- `simple_json_format_check` from `json_parsing.py`. -/
def simple_json_format_check (s : String) : Bool :=
  if [(("\x7b"), ("\x7d")), (("["), ("]")), (("\""), ("\""))].any
      (fun p => strStartsWith s p.1 ∧ strEndsWith s p.2) then true
  else if pyIsDigit s ∨ s = ("true") ∨ s = ("false") ∨ s = ("null") then true
  else pyFloatOk s

inductive ExtractStrategy where
  | first
  | last
  | outer
deriving Repr, DecidableEq

/-- `extract_block` from `json_parsing.py` (markers assumed nonempty, as the
source asserts). -/
def extract_block (s bb be : String) (includeWrapper : Bool)
    (strategy : ExtractStrategy) : Option String :=
  let startLen : Option (Option Nat × Nat) :=
    if strategy = .outer ∨ strategy = .first then
      match strFind s bb with
      | none => none
      | some st => some (some st, bb.length)
    else some (none, 1)
  match startLen with
  | none => none
  | some (st0, beginLen) =>
    let searchFrom := (match st0 with | some st => st | none => 0) + beginLen -
      (match st0 with | some _ => 0 | none => 1)
    let endOpt :=
      if strategy = .outer ∨ strategy = .last then strRFindFrom s be searchFrom
      else strFindFrom s be searchFrom
    match endOpt with
    | none => none
    | some e =>
      let stFinal : Option Nat :=
        if strategy = .last then strRFindBefore s bb e else st0
      match stFinal with
      | none => none
      | some st =>
        let startCapture := if includeWrapper then st else st + bb.length
        let endCapture := if includeWrapper then e + be.length else e
        some (pySlice s startCapture endCapture)

/-- `unwrap_json_substring` from `json_parsing.py`. -/
def unwrap_json_substring (input : String) (allowInText : Bool := true)
    (returnOriginalOnFail : Bool := true) : String :=
  let s := safe_remove_outer_json_wrapper (pyStrip input)
  if simple_json_format_check s then s
  else if ¬ allowInText then (if returnOriginalOnFail then s else (""))
  else
    match extract_block s ("```json") ("```") false .outer with
    | some val => pyStrip val
    | none =>
      -- find outermost {} or []; `start`/`end` begin at 0 and are only
      -- assigned when both index calls succeed (tuple assignment)
      let st0 : Nat := 0
      let en0 : Nat := 0
      let (st1, en1, brace) :=
        match strFind s ("\x7b"), strRFindFrom s ("\x7d") 0 with
        | some a, some b => (a, b, decide (b > a))
        | _, _ => (st0, en0, false)
      let (st2, en2, brace2) :=
        match strFind s ("["), strRFindFrom s ("]") 0 with
        | some a, some b =>
          if brace = false ∨ (a < st1 ∧ b > en1) then (a, b, true) else (st1, en1, brace)
        | _, _ => (st1, en1, brace)
      if brace2 then pySlice s st2 (en2 + 1)
      else if returnOriginalOnFail then s
      else ("")

/-- `fix_json` from `json_parsing.py`: the substitution/parse ladder; each
step's substitutions persist into the next step, exactly as in the source. -/
def fix_json (s0 : String) : String :=
  let s1 := reSub reFixStep1 ("\n") s0
  match jsonLoads s1 with
  | some v => jsonDumps4 v 0
  | none =>
  let s2 := reSub reFixStep2 ("\n") s1
  match jsonLoads s2 with
  | some v => jsonDumps4 v 0
  | none =>
  let s3 := reSub reFixStep3 ("\",\n\"") s2
  match jsonLoads s3 with
  | some v => jsonDumps4 v 0
  | none =>
  let s4 := reSub reFixStep4 ("") s3
  match jsonLoads s4 with
  | some v => jsonDumps4 v 0
  | none =>
  let s5 := reSub reFixStep5d (": \"")
    (reSub reFixStep5c ("\": ")
      (reSub reFixStep5b ("\", ")
        (reSub reFixStep5a ("\"") s4)))
  match jsonLoads s5 with
  | some v => jsonDumps4 v 0
  | none =>
  let s6 := reSub (reFixStep6 ("None")) ("\": null")
    (reSub (reFixStep6 ("True")) ("\": true")
      (reSub (reFixStep6 ("False")) ("\": false") s5))
  match jsonLoads s6 with
  | some v => jsonDumps4 v 0
  | none =>
  let s7 := reSub reFixStep7 ("") s6
  match jsonLoads s7 with
  | some v => jsonDumps4 v 0
  | none =>
  if strStartsWith s7 ("\x7b") ∧ ¬ strEndsWith s7 ("\x7d") then
    let s8 := if s7.data.count '"' % 2 = 1 then s7 ++ ("\"") else s7
    s8 ++ ("\x7d")
  else s7

/-- The failures `parse_json` can surface (`BadAIJsonAnswer` carries a message
in the source; here the condition that produced it). -/
inductive ParseFail where
  | emptyInput
  | decodeError
  | notAnObject
  | missingField (f : String)
deriving Repr, DecidableEq

/-- The body of `parse_json`'s outer `try` block. -/
def parse_json_attempt (input : String) (requiredFields : List String) :
    Except ParseFail PyVal :=
  if input = ("") then .error .emptyInput
  else
    let s := unwrap_json_substring input
    let parsed :=
      match jsonLoads s with
      | some v => some v
      | none => jsonLoads (fix_json s)
    match parsed with
    | none => .error .decodeError
    | some res =>
      if requiredFields ≠ [] then
        match res with
        | .vdict items =>
          match requiredFields.find? (fun f => ¬ items.any (fun kv => kv.1 = f)) with
          | some f => .error (.missingField f)
          | none => .ok res
        | _ => .error .notAnObject
      else .ok res

/-- `parse_json` from `json_parsing.py`: with `raise_errors=False` every
failure is swallowed and the Python value `False` is returned. -/
def parse_json (input : String) (raiseErrors : Bool := true)
    (requiredFields : List String := []) : Except ParseFail PyVal :=
  match parse_json_attempt input requiredFields with
  | .ok v => .ok v
  | .error e => if raiseErrors then .error e else .ok (.vbool false)

end Microcore

namespace Microcore

/-! ## `microcore/llm/_openai_llm_v1.py`: the Stream Assembler

`_process_streamed_response` and `_a_process_streamed_response` run the same
per-chunk state machine (the async variant awaits each callback before the
next, so observer order is the sequential order modelled here).  A chunk is
the value `_get_chunk_text` produced for one streamed event; the walrus
`if text_chunk := ...` skips falsy (empty) chunks.  `hidden_output_begin` /
`hidden_output_end` are `str | None` in the source; Python truthiness makes
`None` and `""` behave identically, so both are modelled as `""`. -/

structure StreamState where
  text : String
  is_hiding : Bool
  /-- One entry per fan-out: the value passed to every registered callback,
  in event order. -/
  cbEvents : List String
deriving Repr, DecidableEq

/-- One iteration of the `for chunk in response` loop body. -/
def processChunk (bm em : String) (st : StreamState) (chunk : String) : StreamState :=
  if chunk = ("") then st
  else
    let needToHide := bm ≠ ("") ∧ em ≠ ("")
    if needToHide then
      if chunk = bm then { st with is_hiding := true }
      else if st.is_hiding then
        if chunk = em then
          -- `text_chunk = ""` then falls through: append "" and fan out ""
          { st with
            is_hiding := false
            text := st.text ++ ("")
            cbEvents := st.cbEvents ++ [("")] }
        else st
      else
        { st with
          text := st.text ++ chunk
          cbEvents := st.cbEvents ++ [chunk] }
    else
      { st with
        text := st.text ++ chunk
        cbEvents := st.cbEvents ++ [chunk] }

/-- `_process_streamed_response` (and its async twin): fold the state machine
over the chunk sequence from the initial state. -/
def process_streamed_response (bm em : String) (chunks : List String) : StreamState :=
  chunks.foldl (processChunk bm em) ⟨(""), false, []⟩

/-- The pieces the state machine appends to the accumulator (the chunks
accepted in the `NORMAL` state; the end-marker contributes the empty piece
`text_chunk = ""`). -/
def acceptedPieces (bm em : String) (hid : Bool) : List String → List String
  | [] => []
  | c :: rest =>
    if c = ("") then acceptedPieces bm em hid rest
    else if bm ≠ ("") ∧ em ≠ ("") then
      if c = bm then acceptedPieces bm em true rest
      else if hid then
        if c = em then ("") :: acceptedPieces bm em false rest
        else acceptedPieces bm em hid rest
      else c :: acceptedPieces bm em hid rest
    else c :: acceptedPieces bm em hid rest

/-- Ordered concatenation of a list of strings. -/
def concatAll (l : List String) : String := l.foldr (· ++ ·) ("")

end Microcore

namespace Microcore

/-! ## `microcore/_llm_functions.py`: `convert_exception`

A backend exception is modelled by its qualified type name
`f"{type(e).__module__}.{type(e).__name__}"` and its `str(e)` message — the
only two attributes `convert_exception` inspects. -/

structure PyExn where
  ty : String
  msg : String
deriving Repr, DecidableEq

/-- The microcore-specific exception types `convert_exception` can produce
(`LLMContextLengthExceededError`, `LLMQuotaExceededError`, `LLMAuthError`). -/
inductive MCError where
  | contextLengthExceeded (actualTokens maxTokens : Option Nat) (model : Option String)
  | quotaExceeded (details : String)
  | authError (msg : String)
deriving Repr, DecidableEq

/-- A converted exception together with its `__cause__` (set by `with_cause`,
the model of `raise new_exc from cause`). -/
structure ConvertedExn where
  err : MCError
  cause : PyExn
deriving Repr, DecidableEq

/-- `isinstance(converted, (LLMContextLengthExceededError, LLMAuthError))`. -/
def MCError.isTerminal : MCError → Bool
  | .contextLengthExceeded _ _ _ => true
  | .authError _ => true
  | _ => false

def reDigits : RE := REplus (RE.cls ("0123456789"))

/-- `maximum context length is (\d+) tokens.*?resulted in (\d+) tokens` -/
def reCtxOpenai : RE :=
  REseq [RE.lit ("maximum context length is "), RE.grp 1 reDigits,
    RE.lit (" tokens"), RE.starL RE.dot, RE.lit ("resulted in "),
    RE.grp 2 reDigits, RE.lit (" tokens")]

/-- `maximum prompt length is (\d+) but the request contains (\d+) tokens` -/
def reCtxXai : RE :=
  REseq [RE.lit ("maximum prompt length is "), RE.grp 1 reDigits,
    RE.lit (" but the request contains "), RE.grp 2 reDigits, RE.lit (" tokens")]

/-- `Prompt contains (\d+) tokens.*?model with (\d+) maximum context length` -/
def reCtxMistral : RE :=
  REseq [RE.lit ("Prompt contains "), RE.grp 1 reDigits,
    RE.lit (" tokens"), RE.starL RE.dot, RE.lit ("model with "),
    RE.grp 2 reDigits, RE.lit (" maximum context length")]

/-- `maximum context length is (\d+) tokens.*? you requested (\d+) tokens` -/
def reCtxDeepseek : RE :=
  REseq [RE.lit ("maximum context length is "), RE.grp 1 reDigits,
    RE.lit (" tokens"), RE.starL RE.dot, RE.lit (" you requested "),
    RE.grp 2 reDigits, RE.lit (" tokens")]

/-- `User input tokens exceeds (\d+) tokens` -/
def reCtxPerplexity : RE :=
  REseq [RE.lit ("User input tokens exceeds "), RE.grp 1 reDigits, RE.lit (" tokens")]

/-- `(\d+)\s+tokens\s+>\s+(\d+)\s+maximum` -/
def reCtxAnthropic : RE :=
  REseq [RE.grp 1 reDigits, REplus RE.wsp, RE.lit ("tokens"), REplus RE.wsp,
    RE.lit (">"), REplus RE.wsp, RE.grp 2 reDigits, REplus RE.wsp, RE.lit ("maximum")]

/-- `input token count exceeds the maximum number of tokens allowed (\d+)` -/
def reCtxGenaiStudio : RE :=
  REseq [RE.lit ("input token count exceeds the maximum number of tokens allowed "),
    RE.grp 1 reDigits]

/-- `input token count \((\d+)\) exceeds the maximum number of tokens allowed \((\d+)\)` -/
def reCtxGenaiVertex : RE :=
  REseq [RE.lit ("input token count ("), RE.grp 1 reDigits,
    RE.lit (") exceeds the maximum number of tokens allowed ("),
    RE.grp 2 reDigits, RE.lit (")")]

/-- `match.group(i)` of an `re.search`, converted by `int(...)`. -/
def searchGroupNat (re : RE) (s : String) (i : Nat) : Option Nat :=
  match reSearch re s with
  | some (_, _, caps) => (capGroup s caps i).map digitsToNat
  | none => none

/-- The dispatch of `convert_exception` from `_llm_functions.py` (sequential
branch order preserved), producing the microcore exception kind; `with_cause`
is applied by the wrapper below. -/
def convert_exception_kind (e : PyExn) (model : Option String := none) :
    Option MCError :=
  let t := e.ty
  let msg := e.msg
  if t = ("openai.BadRequestError") ∧ strContains msg ("context_length_exceeded") then
    some (.contextLengthExceeded (searchGroupNat reCtxOpenai msg 2)
      (searchGroupNat reCtxOpenai msg 1) model)
  else if t = ("openai.BadRequestError") ∧
      strContains msg ("Please reduce the length of the messages or completion.") then
    some (.contextLengthExceeded none none model)
  else if t = ("openai.BadRequestError") ∧
      strContains msg ("This model's maximum prompt length is") ∧
      strContains msg ("but the request contains") ∧ strContains msg ("tokens") then
    some (.contextLengthExceeded (searchGroupNat reCtxXai msg 2)
      (searchGroupNat reCtxXai msg 1) model)
  else if t = ("openai.BadRequestError") ∧ strContains msg ("maximum context length") then
    match reSearch reCtxMistral msg with
    | some _ =>
      some (.contextLengthExceeded (searchGroupNat reCtxMistral msg 1)
        (searchGroupNat reCtxMistral msg 2) model)
    | none =>
      some (.contextLengthExceeded (searchGroupNat reCtxDeepseek msg 2)
        (searchGroupNat reCtxDeepseek msg 1) model)
  else if t = ("openai.BadRequestError") ∧ strContains msg ("too_many_prompt_tokens") then
    some (.contextLengthExceeded none (searchGroupNat reCtxPerplexity msg 1) model)
  else if t = ("openai.APIStatusError") ∧
      strContains msg ("413 Request Entity Too Large") then
    some (.contextLengthExceeded none none model)
  else if t = ("openai.APIStatusError") ∧ strContains msg ("Payload Too Large") then
    some (.contextLengthExceeded none none model)
  else if t = ("anthropic.BadRequestError") ∧ strContains msg ("prompt is too long:") then
    some (.contextLengthExceeded (searchGroupNat reCtxAnthropic msg 1)
      (searchGroupNat reCtxAnthropic msg 2) model)
  else if t = ("google.genai.errors.ClientError") ∧ strContains msg ("429") ∧
      strContains msg ("RESOURCE_EXHAUSTED") then
    some (.quotaExceeded msg)
  else if t = ("google.genai.errors.ClientError") ∧ strContains msg ("input token count") ∧
      strContains msg ("exceeds the maximum number of tokens allowed") then
    match reSearch reCtxGenaiStudio msg with
    | some _ =>
      some (.contextLengthExceeded none (searchGroupNat reCtxGenaiStudio msg 1) model)
    | none =>
      some (.contextLengthExceeded (searchGroupNat reCtxGenaiVertex msg 1)
        (searchGroupNat reCtxGenaiVertex msg 2) model)
  else if t = ("openai.AuthenticationError") ∨ t = ("anthropic.AuthenticationError") ∨
      t = ("google.auth.exceptions.MalformedError") then
    some (.authError msg)
  else if t = ("google.genai.errors.ClientError") ∧ strContains msg ("API_KEY_INVALID") then
    some (.authError msg)
  else if t = ("google.genai.errors.ClientError") ∧ strContains msg ("PERMISSION_DENIED") then
    some (.authError msg)
  else none

/-- `convert_exception`: the classified kind with the original exception
attached as `__cause__` (the `with_cause` helper). -/
def convert_exception (e : PyExn) (model : Option String := none) :
    Option ConvertedExn :=
  (convert_exception_kind e model).map (fun k => ⟨k, e⟩)

end Microcore

namespace Microcore

/-! ## `microcore/_llm_functions.py`: `llm` / `allm`

The backing call `env().llm_function(prompt, **kwargs)` /
`await env().llm_async_function(prompt, **kwargs)` is modelled as a function
from the global invocation index (how many backing calls have happened so
far) to either a raised exception or a fresh response.  The `LLMResponse`
wrapper is modelled by the attributes the pipeline reads or writes:
`content` (the text), `from_file_cache`, whether `gen_duration` / `prompt`
were assigned (their wall-clock/request values are irrelevant to the claims),
and `_retry_callback` as the remaining-retries value the closure
`lambda: llm(prompt, retries=tries - 1, **kwargs)` captures (`none` when the
attribute is absent).  The file cache is modelled by the single slot for this
call's `build_cache_name` key: the key depends only on prompt, call options,
prefix and configuration, which the recursive `allm` self-call repeats
verbatim, so one slot is exact.  The `llm_before_handlers` /
`llm_after_handlers` hooks only observe the prompt/response and return
nothing, so they need no representation. -/

structure LLMResponse where
  content : String
  from_file_cache : Bool := false
  gen_duration_set : Bool := false
  prompt_retained : Bool := false
  retry_callback : Option Nat := none
deriving Repr, DecidableEq

/-- What the retry loop raises. -/
inductive RaisedErr where
  /-- `raise converted_exception from e` -/
  | converted (c : ConvertedExn)
  /-- `raise e` (the original, unmodified) -/
  | original (e : PyExn)
  /-- the `while` loop exhausted without a `break` ever assigning `response`;
  unreachable from `llm`/`allm`, which enter with `tries = retries + 1 ≥ 1` -/
  | unboundResponse
deriving Repr, DecidableEq

/-- `isinstance(converted_exception, (LLMContextLengthExceededError, LLMAuthError))`
on the result of `convert_exception` (`False` for `None`). -/
def isTermConv : Option ConvertedExn → Bool
  | some c => c.err.isTerminal
  | none => false

/-- The retry loop of `llm`/`allm` (`while tries > 0: ...`), entered with
`tries` already holding the value before the first decrement.  Returns the
outcome — on success the response together with the post-loop value of
`tries` — and the number of backing invocations made. -/
def llm_retry_go (call : Nat → Except PyExn LLMResponse) :
    Nat → Nat → (Except RaisedErr (LLMResponse × Nat)) × Nat
  | 0, _ => (.error .unboundResponse, 0)
  | t + 1, idx =>
    match call idx with
    | .ok r => (.ok (r, t), 1)
    | .error e =>
      if t = 0 ∨ isTermConv (convert_exception e) then
        match convert_exception e with
        | some c => (.error (.converted c), 1)
        | none => (.error (.original e), 1)
      else
        ((llm_retry_go call t (idx + 1)).1, (llm_retry_go call t (idx + 1)).2 + 1)

/-- `parse_json` call options (`parse_json=True` is `⟨true, []⟩`;
a non-empty dict supplies these keyword arguments). -/
structure PJArgs where
  raise_errors : Bool := true
  required_fields : List String := []
deriving Repr, DecidableEq

inductive PipeErr where
  | llmError (r : RaisedErr)
  | parseError (p : ParseFail)
deriving Repr, DecidableEq

/-- What an `llm`/`allm` invocation returns: the response itself, or the
parsed value (a `DictFromLLMResponse` keeps `llm_response`, so the response
is carried alongside). -/
inductive PipeOut where
  | resp (r : LLMResponse)
  | parsed (v : PyVal) (r : LLMResponse)
deriving Repr

/-- The response an invocation's return value carries. -/
def PipeOut.response : PipeOut → LLMResponse
  | .resp r => r
  | .parsed _ r => r

structure PipeResult where
  out : Except PipeErr PipeOut
  cache : Option LLMResponse
  calls : Nat
deriving Repr

/-- Tail of the synchronous `llm` after a response is obtained: attach
`_retry_callback` when `tries > 0`, then honor `parse_json` (a strict parse
failure propagates — the synchronous path has no parse retry). -/
def llm_tail (response : LLMResponse) (tries : Nat) (cacheAfter : Option LLMResponse)
    (calls : Nat) (parseJson : Option PJArgs) : PipeResult :=
  let response :=
    if tries > 0 then { response with retry_callback := some (tries - 1) } else response
  match parseJson with
  | none => ⟨.ok (.resp response), cacheAfter, calls⟩
  | some pj =>
    match parse_json response.content pj.raise_errors pj.required_fields with
    | .ok v => ⟨.ok (.parsed v response), cacheAfter, calls⟩
    | .error pe => ⟨.error (.parseError pe), cacheAfter, calls⟩

/-- Synchronous `llm(prompt, retries, parse_json, file_cache, **kwargs)`:
`call` is the backing LLM function, `saveMemory` is `config.SAVE_MEMORY`,
`cache` the entry currently stored under this call's cache key, and
`startIdx` the number of backing invocations already made. -/
def llm_call (call : Nat → Except PyExn LLMResponse) (saveMemory : Bool)
    (retries : Nat) (parseJson : Option PJArgs) (fileCache : Bool)
    (cache : Option LLMResponse) (startIdx : Nat) : PipeResult :=
  match fileCache, cache with
  | true, some cached =>
    -- cache hit: load, mark `from_file_cache`, `tries = 0`
    llm_tail { cached with from_file_cache := true } 0 cache 0 parseJson
  | fc, c =>
    match llm_retry_go call (retries + 1) startIdx with
    | (.error r, n) => ⟨.error (.llmError r), c, n⟩
    | (.ok (resp, tries), n) =>
      let resp := { resp with
        gen_duration_set := true
        prompt_retained := ¬ saveMemory }
      let cacheAfter := if fc then some resp else c
      llm_tail resp tries cacheAfter n parseJson

/-- `llm_retry_go` never reports more remaining tries than it was given. -/
theorem llm_retry_go_ok_lt (call : Nat → Except PyExn LLMResponse) :
    ∀ t idx r tr n, llm_retry_go call t idx = (.ok (r, tr), n) → tr < t := by
  intro t
  induction t with
  | zero => intro idx r tr n h; simp [llm_retry_go] at h
  | succ t ih =>
    intro idx r tr n h
    rw [llm_retry_go] at h
    cases hc : call idx with
    | ok rr =>
      rw [hc] at h
      simp at h
      omega
    | error e =>
      rw [hc] at h
      dsimp only at h
      by_cases hcond : t = 0 ∨ isTermConv (convert_exception e) = true
      · rw [if_pos hcond] at h
        split at h <;> simp_all
      · rw [if_neg hcond] at h
        have h1 : (llm_retry_go call t (idx + 1)).1 = .ok (r, tr) := by
          simpa using congrArg Prod.fst h
        have := ih (idx + 1) r tr (llm_retry_go call t (idx + 1)).2
          (Prod.ext h1 rfl)
        omega

/-- Asynchronous `allm`: on a cache hit `tries = 0`; on the live path a strict
parse failure with remaining budget deletes the cache entry and re-issues the
whole call with `retries = tries - 1`.  `_retry_callback` is never attached.
The structural `fuel` argument dominates `retries` (`allm_call` enters with
`fuel = retries + 1`, and the re-issue strictly decreases `retries` because
the loop returns `tries ≤ retries`), so the fuel-exhaustion branch is
unreachable. -/
def allm_go (call : Nat → Except PyExn LLMResponse) (saveMemory : Bool) :
    Nat → Nat → Option PJArgs → Bool → Option LLMResponse → Nat → PipeResult
  | 0, _, _, _, cache, _ => ⟨.error (.llmError .unboundResponse), cache, 0⟩
  | fuel + 1, retries, parseJson, fileCache, cache, startIdx =>
    match fileCache, cache with
    | true, some cached =>
      let response := { cached with from_file_cache := true }
      match parseJson with
      | none => ⟨.ok (.resp response), cache, 0⟩
      | some pj =>
        -- `tries = 0`: a parse failure raises; no deletion, no re-issue
        match parse_json response.content pj.raise_errors pj.required_fields with
        | .ok v => ⟨.ok (.parsed v response), cache, 0⟩
        | .error pe => ⟨.error (.parseError pe), cache, 0⟩
    | fc, c =>
      match llm_retry_go call (retries + 1) startIdx with
      | (.error r, n) => ⟨.error (.llmError r), c, n⟩
      | (.ok (resp, tries), n) =>
        let resp2 : LLMResponse := { resp with
          gen_duration_set := true
          prompt_retained := ¬ saveMemory }
        let cacheAfter := if fc then some resp2 else c
        match parseJson with
        | none => ⟨.ok (.resp resp2), cacheAfter, n⟩
        | some pj =>
          match parse_json resp2.content pj.raise_errors pj.required_fields with
          | .ok v => ⟨.ok (.parsed v resp2), cacheAfter, n⟩
          | .error pe =>
            if 0 < tries then
              -- `delete_cache(cache_name)` then `return await allm(...)`
              let cacheDel := if fc then none else cacheAfter
              let recres := allm_go call saveMemory fuel (tries - 1) parseJson fc
                cacheDel (startIdx + n)
              ⟨recres.out, recres.cache, n + recres.calls⟩
            else ⟨.error (.parseError pe), cacheAfter, n⟩

/-- `allm(prompt, retries, parse_json, file_cache, **kwargs)`. -/
def allm_call (call : Nat → Except PyExn LLMResponse) (saveMemory : Bool)
    (retries : Nat) (parseJson : Option PJArgs) (fileCache : Bool)
    (cache : Option LLMResponse) (startIdx : Nat) : PipeResult :=
  allm_go call saveMemory (retries + 1) retries parseJson fileCache cache startIdx

end Microcore

namespace Microcore

/-! ## `microcore/file_cache.py`: `build_cache_name`

`build_cache_name` pickles `{"config": asdict(config()), "prefix": prefix,
"kwargs": kwargs, "args": args}` and hex-digests it with SHA-256.  `hashlib`
is modelled by a full SHA-256 over bytes; `pickle.dumps` (protocol 4, the
CPython default) by a byte-level encoder for the object shapes that occur
(strings, ints, bools, `None`, tuples, dicts).  CPython memoizes by object
identity; the inputs considered share no sub-objects, so no `BINGET` is
emitted. -/

def m32 : Nat := 4294967296

def rotr (n x : Nat) : Nat := ((x >>> n) ||| (x <<< (32 - n))) % m32

def shaCh (e f g : Nat) : Nat := (e &&& f) ^^^ ((e ^^^ (m32 - 1)) &&& g)

def shaMaj (a b c : Nat) : Nat := (a &&& b) ^^^ (a &&& c) ^^^ (b &&& c)

def shaBigSigma0 (x : Nat) : Nat := rotr 2 x ^^^ rotr 13 x ^^^ rotr 22 x

def shaBigSigma1 (x : Nat) : Nat := rotr 6 x ^^^ rotr 11 x ^^^ rotr 25 x

def shaSmallSigma0 (x : Nat) : Nat := rotr 7 x ^^^ rotr 18 x ^^^ (x >>> 3)

def shaSmallSigma1 (x : Nat) : Nat := rotr 17 x ^^^ rotr 19 x ^^^ (x >>> 10)

def shaK : List Nat := [
  1116352408, 1899447441, 3049323471, 3921009573, 961987163,
  1508970993, 2453635748, 2870763221, 3624381080, 310598401,
  607225278, 1426881987, 1925078388, 2162078206, 2614888103,
  3248222580, 3835390401, 4022224774, 264347078, 604807628,
  770255983, 1249150122, 1555081692, 1996064986, 2554220882,
  2821834349, 2952996808, 3210313671, 3336571891, 3584528711,
  113926993, 338241895, 666307205, 773529912, 1294757372,
  1396182291, 1695183700, 1986661051, 2177026350, 2456956037,
  2730485921, 2820302411, 3259730800, 3345764771, 3516065817,
  3600352804, 4094571909, 275423344, 430227734, 506948616,
  659060556, 883997877, 958139571, 1322822218, 1537002063,
  1747873779, 1955562222, 2024104815, 2227730452, 2361852424,
  2428436474, 2756734187, 3204031479, 3329325298]

def shaH0 : List Nat := [
  1779033703, 3144134277, 1013904242, 2773480762,
  1359893119, 2600822924, 528734635, 1541459225]

/-- `k` bytes of `n`, big-endian. -/
def beBytes (n k : Nat) : List Nat :=
  (List.range k).reverse.map (fun i => n / 256 ^ i % 256)

/-- `k` bytes of `n`, little-endian. -/
def leBytes (n k : Nat) : List Nat :=
  (List.range k).map (fun i => n / 256 ^ i % 256)

/-- SHA-256 padding: `0x80`, zeros to 56 mod 64, 8-byte big-endian bit length. -/
def shaPad (msg : List Nat) : List Nat :=
  let padLen := (120 - (msg.length + 1) % 64) % 64
  msg ++ [0x80] ++ List.replicate padLen 0 ++ beBytes (8 * msg.length) 8

def chunksOf64 : Nat → List Nat → List (List Nat)
  | 0, _ => []
  | _, [] => []
  | fuel + 1, l => l.take 64 :: chunksOf64 fuel (l.drop 64)

/-- A 64-byte block as 16 big-endian 32-bit words. -/
def blockWords (block : List Nat) : List Nat :=
  (List.range 16).map (fun i =>
    ((block.getD (4 * i) 0 * 256 + block.getD (4 * i + 1) 0) * 256 +
      block.getD (4 * i + 2) 0) * 256 + block.getD (4 * i + 3) 0)

/-- Message schedule: extend 16 words to 64. -/
def shaSchedule (ws : List Nat) : List Nat :=
  (List.range 48).foldl (fun a i =>
    a ++ [(shaSmallSigma1 (a.getD (i + 14) 0) + a.getD (i + 9) 0 +
      shaSmallSigma0 (a.getD (i + 1) 0) + a.getD i 0) % m32]) ws

/-- The 64-round compression of one block into the running hash state. -/
def shaCompress (hs : List Nat) (block : List Nat) : List Nat :=
  let w := shaSchedule (blockWords block)
  let step := fun (st : Nat × Nat × Nat × Nat × Nat × Nat × Nat × Nat) (i : Nat) =>
    let (a, b, c, d, e, f, g, h) := st
    let t1 := (h + shaBigSigma1 e + shaCh e f g + shaK.getD i 0 + w.getD i 0) % m32
    let t2 := (shaBigSigma0 a + shaMaj a b c) % m32
    ((t1 + t2) % m32, a, b, c, (d + t1) % m32, e, f, g)
  let init := (hs.getD 0 0, hs.getD 1 0, hs.getD 2 0, hs.getD 3 0,
    hs.getD 4 0, hs.getD 5 0, hs.getD 6 0, hs.getD 7 0)
  let (a, b, c, d, e, f, g, h) := (List.range 64).foldl step init
  [(hs.getD 0 0 + a) % m32, (hs.getD 1 0 + b) % m32, (hs.getD 2 0 + c) % m32,
    (hs.getD 3 0 + d) % m32, (hs.getD 4 0 + e) % m32, (hs.getD 5 0 + f) % m32,
    (hs.getD 6 0 + g) % m32, (hs.getD 7 0 + h) % m32]

def hexCharLower (d : Nat) : Char :=
  if d < 10 then Char.ofNat ('0'.toNat + d) else Char.ofNat ('a'.toNat + d - 10)

def bytesToHex (bs : List Nat) : String :=
  ⟨bs.flatMap (fun b => [hexCharLower (b / 16), hexCharLower (b % 16)])⟩

/-- `hashlib.sha256(msg).hexdigest()`. -/
def sha256hex (msg : List Nat) : String :=
  let padded := shaPad msg
  let hs := (chunksOf64 (padded.length / 64 + 1) padded).foldl shaCompress shaH0
  bytesToHex (hs.flatMap (fun wd => beBytes wd 4))

/-- Python objects as pickled by `build_cache_name` (dict iteration order is
insertion order, which `pickle` serializes as-is). -/
inductive PyObj where
  | pstr (s : String)
  | pint (n : Int)
  | pbool (b : Bool)
  | pnone
  | ptuple (xs : List PyObj)
  | pdict (items : List (PyObj × PyObj))
deriving Repr

/-- UTF-8 encoding of one character. -/
def utf8Char (c : Char) : List Nat :=
  let n := c.toNat
  if n < 0x80 then [n]
  else if n < 0x800 then [0xc0 + n / 64, 0x80 + n % 64]
  else if n < 0x10000 then [0xe0 + n / 4096, 0x80 + n / 64 % 64, 0x80 + n % 64]
  else [0xf0 + n / 262144, 0x80 + n / 4096 % 64, 0x80 + n / 64 % 64, 0x80 + n % 64]

def utf8Encode (s : String) : List Nat := s.data.flatMap utf8Char

/-- `LONG1`: minimal two's-complement little-endian encoding. -/
def pickleLong (n : Int) : List Nat :=
  let k := ((List.range 32).map (fun i => i + 1)).find?
    (fun k => -(2 ^ (8 * k - 1) : Int) ≤ n ∧ n < (2 ^ (8 * k - 1) : Int))
  let k := k.getD 32
  [0x8a, k] ++ leBytes (n % ((2 : Int) ^ (8 * k))).toNat k

mutual

/-- CPython `pickle` protocol-4 encoding (without the `PROTO`/`FRAME`/`STOP`
envelope): `SHORT_BINUNICODE`/`BINUNICODE` + `MEMOIZE` for strings,
`BININT1`/`BININT2`/`BININT`/`LONG1` for ints, `NEWTRUE`/`NEWFALSE`, `NONE`,
`EMPTY_TUPLE`/`TUPLE1..3`/`MARK..TUPLE` (+ `MEMOIZE`), and
`EMPTY_DICT`+`MEMOIZE` followed by `SETITEM` for one entry or
`MARK..SETITEMS` for several (batches of 1000; the dicts here are smaller). -/
def pickleEnc : PyObj → List Nat
  | .pstr s =>
    let b := utf8Encode s
    (if b.length < 256 then [0x8c, b.length] ++ b
     else [0x58] ++ leBytes b.length 4 ++ b) ++ [0x94]
  | .pint n =>
    if 0 ≤ n ∧ n ≤ 0xff then [0x4b, n.toNat]
    else if 0 ≤ n ∧ n ≤ 0xffff then [0x4d] ++ leBytes n.toNat 2
    else if -0x80000000 ≤ n ∧ n ≤ 0x7fffffff then
      [0x4a] ++ leBytes (n % (0x100000000 : Int)).toNat 4
    else pickleLong n
  | .pbool b => if b then [0x88] else [0x89]
  | .pnone => [0x4e]
  | .ptuple [] => [0x29]
  | .ptuple xs =>
    if xs.length ≤ 3 then pickleEncItems xs ++ [0x84 + xs.length, 0x94]
    else [0x28] ++ pickleEncItems xs ++ [0x74, 0x94]
  | .pdict [] => [0x7d, 0x94]
  | .pdict [kv] => [0x7d, 0x94] ++ pickleEncPairs [kv] ++ [0x73]
  | .pdict kvs => [0x7d, 0x94, 0x28] ++ pickleEncPairs kvs ++ [0x75]

def pickleEncItems : List PyObj → List Nat
  | [] => []
  | x :: rest => pickleEnc x ++ pickleEncItems rest

def pickleEncPairs : List (PyObj × PyObj) → List Nat
  | [] => []
  | (k, v) :: rest => pickleEnc k ++ pickleEnc v ++ pickleEncPairs rest

end

/-- `pickle.dumps(obj)` at the default protocol 4: `PROTO 4`, one `FRAME`
holding the payload and the `STOP` opcode. -/
def pickle_dumps (obj : PyObj) : List Nat :=
  let payload := pickleEnc obj ++ [0x2e]
  [0x80, 0x04, 0x95] ++ leBytes payload.length 8 ++ payload

/-- `cache_dir` from `file_cache.py`. -/
def cache_dir (pfx : String) : String :=
  let p := if pfx ≠ ("") then pyStripChars (pyReplace pfx ("..") ("")) ("/") else pfx
  ("cache/") ++ (if p ≠ ("") then p ++ ("/") else (""))

/-- `build_cache_name(*args, prefix="", **kwargs)` from `file_cache.py`:
`asdict(config())` is the `configSnapshot` argument; `llm`/`allm` call it as
`build_cache_name(prompt, kwargs, prefix=...)`, i.e. with the prompt and the
call-options dict inside `args` and an empty `**kwargs`. -/
def build_cache_obj (configSnapshot : PyObj) (args : List PyObj)
    (kwargs : List (String × PyObj)) (pfx : String) : PyObj :=
  PyObj.pdict [
    (.pstr ("config"), configSnapshot),
    (.pstr ("prefix"), .pstr pfx),
    (.pstr ("kwargs"), .pdict (kwargs.map (fun kv => (PyObj.pstr kv.1, kv.2)))),
    (.pstr ("args"), .ptuple args)]

def build_cache_name (configSnapshot : PyObj) (args : List PyObj)
    (kwargs : List (String × PyObj)) (pfx : String) : String :=
  cache_dir pfx ++
    sha256hex (pickle_dumps (build_cache_obj configSnapshot args kwargs pfx)) ++ (".pkl")

/-- The cache key `llm`/`allm` derive:
`build_cache_name(prompt, kwargs, prefix=file_cache if isinstance(file_cache, str) else "llm_requests")`
— prompt and the call-options dict travel in `*args`, `**kwargs` is empty. -/
def llm_cache_name (configSnapshot : PyObj) (prompt : PyObj)
    (callOptions : List (String × PyObj)) (pfx : String) : String :=
  build_cache_name configSnapshot
    [prompt, .pdict (callOptions.map (fun kv => (PyObj.pstr kv.1, kv.2)))] [] pfx

mutual

/-- Structural (Python `==`) equality of the modelled Python values. -/
def pyObjBeq : PyObj → PyObj → Bool
  | .pstr a, .pstr b => a == b
  | .pint a, .pint b => a == b
  | .pbool a, .pbool b => a == b
  | .pnone, .pnone => true
  | .ptuple a, .ptuple b => pyObjBeqList a b
  | .pdict a, .pdict b => pyObjBeqPairs a b
  | _, _ => false

def pyObjBeqList : List PyObj → List PyObj → Bool
  | [], [] => true
  | a :: as', b :: bs' => pyObjBeq a b && pyObjBeqList as' bs'
  | _, _ => false

def pyObjBeqPairs : List (PyObj × PyObj) → List (PyObj × PyObj) → Bool
  | [], [] => true
  | (k, v) :: as', (k2, v2) :: bs' => pyObjBeq k k2 && pyObjBeq v v2 && pyObjBeqPairs as' bs'
  | _, _ => false

end

/-- Dict lookup in a string-keyed association list. -/
def assocLookup (l : List (String × PyObj)) (k : String) : Option PyObj :=
  (l.find? (fun kv => kv.1 = k)).map (fun kv => kv.2)

def optObjBeq : Option PyObj → Option PyObj → Bool
  | none, none => true
  | some a, some b => pyObjBeq a b
  | _, _ => false

/-- Python `dict(l1) == dict(l2)` for string-keyed association lists without
duplicate keys: the same keys map to equal values, irrespective of order. -/
def mapsEquiv (l1 l2 : List (String × PyObj)) : Bool :=
  (l1.map Prod.fst ++ l2.map Prod.fst).all
    (fun k => optObjBeq (assocLookup l1 k) (assocLookup l2 k))

end Microcore

namespace Microcore

/-! ## Claim theorems -/

/-- String append helpers (the `String` ext/append lemmas used below). -/
theorem strAppendEmpty (s : String) : s ++ ("") = s := by
  cases s
  simp [String.instAppend, String.append]

theorem strAppendAssoc (a b c : String) : a ++ b ++ c = a ++ (b ++ c) := by
  cases a
  cases b
  cases c
  simp only [HAppend.hAppend, Append.append, String.append]
  simp

/-- **C7** — counterexample.  The claim says the repair ladder recovers
`{'a': 1}` to the mapping `a ↦ 1`; in fact `fix_json` rewrites it to
`{"a': 1}` (the single-quote substitutions fix the key's opening quote but
require a quoted value for the rest), `json.loads` still fails, and
`parse_json` raises `BadAIJsonAnswer` instead of returning the mapping. -/
theorem c7_counterexample :
    parse_json ("\x7b\x27a\x27: 1\x7d") true [] ≠
      .ok (.vdict [(("a"), .vint 1)]) ∧
    parse_json ("\x7b\x27a\x27: 1\x7d") true [] = .error .decodeError := by
  refine ⟨?_, rfl⟩
  intro h
  rw [show parse_json ("\x7b\x27a\x27: 1\x7d") true [] =
    Except.error ParseFail.decodeError from rfl] at h
  exact Except.noConfusion h

/-- **C7** — amended.  The repair ladder recovers `{"a": 1,}` (redundant
trailing comma) and the truncated `{"a": 1` to the mapping `a ↦ 1`, but not
the single-quoted `{'a': 1}`: that input raises `BadAIJsonAnswer` in strict
mode and returns the `False` sentinel with `raise_errors=False`. -/
theorem c7_amended :
    parse_json ("\x7b\"a\": 1,\x7d") true [] = .ok (.vdict [(("a"), .vint 1)]) ∧
    parse_json ("\x7b\"a\": 1") true [] = .ok (.vdict [(("a"), .vint 1)]) ∧
    parse_json ("\x7b\x27a\x27: 1\x7d") true [] = .error .decodeError ∧
    parse_json ("\x7b\x27a\x27: 1\x7d") false [] = .ok (.vbool false) :=
  ⟨rfl, rfl, rfl, rfl⟩

/-- **C10** — confirmed.  In non-strict mode the "no value" sentinel of
`parse_json` is the Python boolean `False`: every input on which the whole
attempt (unwrap, parse, repair ladder, required-field check) fails yields
`.ok (.vbool false)` when `raise_errors=False`; and since the valid JSON text
`"false"` parses to the same value, a parse failure is indistinguishable from
a legitimately parsed JSON `false` by the return value alone. -/
theorem c10_false_sentinel :
    (∀ s rf e, parse_json_attempt s rf = .error e →
      parse_json s false rf = .ok (.vbool false)) ∧
    parse_json ("false") true [] = .ok (.vbool false) ∧
    parse_json ("not json") false [] = parse_json ("false") false [] := by
  refine ⟨?_, rfl, rfl⟩
  intro s rf e h
  simp [parse_json, h]

/-- **C10** — witness: the failing input `"not json"` and the success input
`"false"` both produce `.ok (.vbool false)`. -/
theorem c10_false_sentinel_witness :
    parse_json_attempt ("not json") [] = .error .decodeError ∧
    parse_json ("not json") false [] = .ok (.vbool false) :=
  ⟨rfl, c10_false_sentinel.1 ("not json") [] .decodeError rfl⟩

/-- **C9** — counterexample.  In the `HIDING` state, a chunk equal to the
end-marker does return the machine to `NORMAL` and appends nothing, but the
claim's "no registered observer callback is invoked for that chunk" is false:
the source sets `text_chunk = ""` and falls through to the callback fan-out,
so every registered callback is invoked once with the empty string (the
callback-event list grows). -/
theorem c9_counterexample :
    processChunk ("<hide>") ("</hide>") ⟨("A"), true, [("A")]⟩ ("</hide>") =
      ⟨("A"), false, [("A"), ("")]⟩ ∧
    (processChunk ("<hide>") ("</hide>") ⟨("A"), true, [("A")]⟩ ("</hide>")).cbEvents ≠
      [("A")] ∧
    (process_streamed_response ("<hide>") ("</hide>")
      [("A"), ("<hide>"), ("secret"), ("</hide>"), ("B")]).cbEvents =
      [("A"), (""), ("B")] := by
  refine ⟨rfl, ?_, rfl⟩
  intro h
  rw [show (processChunk ("<hide>") ("</hide>") ⟨("A"), true, [("A")]⟩
    ("</hide>")).cbEvents = [("A"), ("")] from rfl] at h
  exact absurd h (by decide)

/-- **C9** — amended.  When the assembler is `HIDING` and receives a chunk
exactly equal to the configured (nonempty, distinct) end-marker, it returns
to `NORMAL` and appends nothing to the accumulator, but each registered
callback is invoked once with the empty string for that chunk. -/
theorem c9_amended (bm em : String) (st : StreamState)
    (hbm : bm ≠ ("")) (hem : em ≠ ("")) (hne : bm ≠ em)
    (hh : st.is_hiding = true) :
    processChunk bm em st em =
      { st with is_hiding := false, cbEvents := st.cbEvents ++ [("")] } := by
  have hneb : em ≠ bm := fun h => hne h.symm
  simp [processChunk, hem, hbm, hneb, hh, strAppendEmpty]

/-- **C9** — witness for the amended statement. -/
theorem c9_amended_witness :
    processChunk ("<hide>") ("</hide>") ⟨("A"), true, [("A")]⟩ ("</hide>") =
      ⟨("A"), false, [("A"), ("")]⟩ :=
  c9_amended ("<hide>") ("</hide>") ⟨("A"), true, [("A")]⟩
    (by decide) (by decide) (by decide) rfl

/-- **C1** — counterexample.  Two `llm` invocations whose configuration
snapshot, prompt, prefix and call-options mapping are logically identical
(`dict` equality holds for the two kwargs orderings) derive different cache
keys: `build_cache_name` pickles its inputs without any sorting, and
`pickle` serializes dict items in insertion order. -/
theorem c1_counterexample :
    mapsEquiv [(("a"), .pint 1), (("b"), .pint 2)]
      [(("b"), .pint 2), (("a"), .pint 1)] = true ∧
    llm_cache_name (.pdict [(.pstr ("MODEL"), .pstr ("gpt"))]) (.pstr ("hi"))
        [(("a"), .pint 1), (("b"), .pint 2)] ("llm_requests") ≠
      llm_cache_name (.pdict [(.pstr ("MODEL"), .pstr ("gpt"))]) (.pstr ("hi"))
        [(("b"), .pint 2), (("a"), .pint 1)] ("llm_requests") :=
  ⟨rfl, by decide⟩

/-- **C1** — amended.  The cache key is a function of the prefix and of the
pickled serialization of (configuration snapshot, prefix, args, kwargs):
identical serializations give identical keys.  But the key is not invariant
under reordering of mapping keys — no sorting happens before hashing, and the
serialization depends on dict insertion order, as the reordered call-options
mappings of the counterexample show already at the byte level. -/
theorem c1_amended :
    (∀ cfg args kwargs pfx cfg2 args2 kwargs2 pfx2, pfx = pfx2 →
      pickle_dumps (build_cache_obj cfg args kwargs pfx) =
        pickle_dumps (build_cache_obj cfg2 args2 kwargs2 pfx2) →
      build_cache_name cfg args kwargs pfx =
        build_cache_name cfg2 args2 kwargs2 pfx2) ∧
    pickle_dumps (build_cache_obj (.pdict [(.pstr ("MODEL"), .pstr ("gpt"))])
        [.pstr ("hi"), .pdict [(.pstr ("a"), .pint 1), (.pstr ("b"), .pint 2)]]
        [] ("llm_requests")) ≠
      pickle_dumps (build_cache_obj (.pdict [(.pstr ("MODEL"), .pstr ("gpt"))])
        [.pstr ("hi"), .pdict [(.pstr ("b"), .pint 2), (.pstr ("a"), .pint 1)]]
        [] ("llm_requests")) := by
  refine ⟨?_, by decide⟩
  intro cfg args kwargs pfx cfg2 args2 kwargs2 pfx2 hp hpk
  subst hp
  simp [build_cache_name, hpk]

/-- **C1** — witness for the amended statement. -/
theorem c1_amended_witness :
    build_cache_name (.pdict []) [.pstr ("hi")] [] ("p") =
      build_cache_name (.pdict []) [.pstr ("hi")] [] ("p") :=
  c1_amended.1 (.pdict []) [.pstr ("hi")] [] ("p") (.pdict []) [.pstr ("hi")] []
    ("p") rfl rfl

end Microcore

namespace Microcore

/-- What the retry loop raises once the budget is exhausted on a failure `e`:
the converted exception (chained to `e`) when one exists, else `e` itself. -/
def raiseOf (e : PyExn) : RaisedErr :=
  match convert_exception e with
  | some c => .converted c
  | none => .original e

/-- An always-failing, never-terminal backing function makes the loop use its
whole budget: entered with `t + 1` tries it performs exactly `t + 1`
invocations and raises for the last failure. -/
theorem llm_retry_go_allfail (call : Nat → Except PyExn LLMResponse)
    (es : Nat → PyExn) (hfail : ∀ i, call i = .error (es i))
    (hnt : ∀ i, isTermConv (convert_exception (es i)) = false) :
    ∀ t idx, llm_retry_go call (t + 1) idx =
      (.error (raiseOf (es (idx + t))), t + 1) := by
  intro t
  induction t with
  | zero =>
    intro idx
    rw [llm_retry_go, hfail idx]
    have hcond : (0 : Nat) = 0 ∨ isTermConv (convert_exception (es idx)) = true :=
      Or.inl rfl
    rcases hconv : convert_exception (es idx) with _ | c <;>
      simp [hconv, raiseOf]
  | succ t ih =>
    intro idx
    rw [llm_retry_go, hfail idx]
    dsimp only
    have hcond : ¬(t + 1 = 0 ∨ isTermConv (convert_exception (es idx)) = true) := by
      simp [hnt idx]
    rw [if_neg hcond, ih (idx + 1)]
    have harith : idx + 1 + t = idx + (t + 1) := by omega
    simp [harith]

/-- **C2** — confirmed.  With `retries = N`, a backing LLM function failing on
every invocation with a failure never classified as terminal is invoked
exactly `N + 1` times, after which `llm` raises (the converted exception of
the last failure when one exists, else the original). -/
theorem c2_retry_count (call : Nat → Except PyExn LLMResponse)
    (es : Nat → PyExn) (sm : Bool) (retries startIdx : Nat)
    (hfail : ∀ i, call i = .error (es i))
    (hnt : ∀ i, isTermConv (convert_exception (es i)) = false) :
    llm_call call sm retries none false none startIdx =
      ⟨.error (.llmError (raiseOf (es (startIdx + retries)))), none, retries + 1⟩ := by
  have h := llm_retry_go_allfail call es hfail hnt retries startIdx
  simp [llm_call, h]

/-- **C2** — witness: `retries = 2` with an always-failing thunk makes exactly
3 invocations and raises the original (unclassifiable) exception. -/
theorem c2_retry_count_witness :
    llm_call (fun _ => .error ⟨("x.y"), ("boom")⟩) false 2 none false none 0 =
      ⟨.error (.llmError (.original ⟨("x.y"), ("boom")⟩)), none, 3⟩ :=
  c2_retry_count (fun _ => .error ⟨("x.y"), ("boom")⟩)
    (fun _ => ⟨("x.y"), ("boom")⟩) false 2 0 (fun _ => rfl) (fun _ => rfl)

/-- **C6** — confirmed.  Whenever the retry loop of `llm`/`allm` raises: a
failure classified as `ContextLengthExceeded` or `AuthError` raises
immediately after a single backing invocation regardless of remaining budget,
and the raised exception is the classified error chained to the original
failure as its `__cause__`; a failure that could not be classified raises the
original exception unmodified once the budget is exhausted. -/
theorem c6_terminal_and_unclassified :
    (∀ (call : Nat → Except PyExn LLMResponse) t idx e c,
      call idx = .error e → convert_exception e = some c →
      c.err.isTerminal = true →
      llm_retry_go call (t + 1) idx = (.error (.converted c), 1) ∧ c.cause = e) ∧
    (∀ (call : Nat → Except PyExn LLMResponse) idx e,
      call idx = .error e → convert_exception e = none →
      llm_retry_go call 1 idx = (.error (.original e), 1)) := by
  constructor
  · intro call t idx e c hc hconv hterm
    have hcause : c.cause = e := by
      rcases hk : convert_exception_kind e none with _ | k <;>
        rw [convert_exception, hk] at hconv <;> simp at hconv
      rw [← hconv]
    refine ⟨?_, hcause⟩
    rw [llm_retry_go, hc]
    dsimp only
    have hcond : t = 0 ∨ isTermConv (convert_exception e) = true := by
      right
      simp [isTermConv, hconv, hterm]
    rw [if_pos hcond]
    simp [hconv]
  · intro call idx e hc hnone
    rw [llm_retry_go, hc]
    dsimp only
    have hcond : (0 : Nat) = 0 ∨ isTermConv (convert_exception e) = true :=
      Or.inl rfl
    rw [if_pos hcond]
    simp [hnone]

/-- **C6** — witness: an `openai.AuthenticationError` raises its classified
`LLMAuthError` (cause attached) on the first invocation even with budget
left; an unrecognized failure with exhausted budget raises the original. -/
theorem c6_witness :
    llm_retry_go (fun _ => .error ⟨("openai.AuthenticationError"), ("bad key")⟩) 5 0 =
      (.error (.converted ⟨.authError ("bad key"),
        ⟨("openai.AuthenticationError"), ("bad key")⟩⟩), 1) ∧
    llm_retry_go (fun _ => .error ⟨("x.y"), ("boom")⟩) 1 0 =
      (.error (.original ⟨("x.y"), ("boom")⟩), 1) :=
  ⟨(c6_terminal_and_unclassified.1
      (fun _ => .error ⟨("openai.AuthenticationError"), ("bad key")⟩) 4 0
      ⟨("openai.AuthenticationError"), ("bad key")⟩
      ⟨.authError ("bad key"), ⟨("openai.AuthenticationError"), ("bad key")⟩⟩
      rfl rfl rfl).1,
    c6_terminal_and_unclassified.2 (fun _ => .error ⟨("x.y"), ("boom")⟩) 0
      ⟨("x.y"), ("boom")⟩ rfl rfl⟩

/-- **C8** — counterexample.  An `llm` invocation with `file_cache` enabled
that raises can still have written a cache entry: the backing call succeeds,
the response is cached, and only then does strict `parse_json` fail — the
invocation raises while the (malformed) entry now populates the cache. -/
theorem c8_counterexample :
    llm_call (fun _ => .ok ⟨("not json"), false, false, false, none⟩) false 0
        (some ⟨true, []⟩) true none 0 =
      ⟨.error (.parseError .decodeError),
        some ⟨("not json"), false, true, true, none⟩, 1⟩ ∧
    (llm_call (fun _ => .ok ⟨("not json"), false, false, false, none⟩) false 0
        (some ⟨true, []⟩) true none 0).cache ≠ none := by
  refine ⟨rfl, ?_⟩
  intro h
  rw [show (llm_call (fun _ => .ok ⟨("not json"), false, false, false, none⟩) false 0
    (some ⟨true, []⟩) true none 0).cache =
    some ⟨("not json"), false, true, true, none⟩ from rfl] at h
  exact Option.noConfusion h

/-- **C8** — amended.  A failed *backing LLM call* never populates or reuses a
cache entry: when the retry loop itself raises (no cache hit occurred), both
`llm` and `allm` propagate the error, return no cached response, and leave the
cache slot for the key exactly as it was.  (Only the later parse stage can
leave behind a freshly written entry, as the counterexample shows.) -/
theorem c8_amended (call : Nat → Except PyExn LLMResponse) (sm : Bool)
    (retries : Nat) (pj : Option PJArgs) (fc : Bool)
    (cache : Option LLMResponse) (idx : Nat) (r : RaisedErr) (n : Nat)
    (hmiss : ¬(fc = true ∧ cache.isSome = true))
    (hloop : llm_retry_go call (retries + 1) idx = (.error r, n)) :
    llm_call call sm retries pj fc cache idx = ⟨.error (.llmError r), cache, n⟩ ∧
    allm_call call sm retries pj fc cache idx = ⟨.error (.llmError r), cache, n⟩ := by
  cases fc <;> cases cache <;> simp_all [llm_call, allm_call, allm_go, hloop]

/-- **C8** — witness for the amended statement. -/
theorem c8_amended_witness :
    llm_call (fun _ => .error ⟨("x.y"), ("boom")⟩) false 1 none true none 0 =
      ⟨.error (.llmError (.original ⟨("x.y"), ("boom")⟩)), none, 2⟩ :=
  (c8_amended (fun _ => .error ⟨("x.y"), ("boom")⟩) false 1 none true none 0
    (.original ⟨("x.y"), ("boom")⟩) 2 (by simp) rfl).1

end Microcore

namespace Microcore

/-- **C4** — counterexample.  `allm` with `file_cache` enabled and strict
`parse_json`, a populated cache entry whose text does not parse, and a
generous retry budget: the cache hit sets `tries = 0`, so the parse failure
raises immediately — the entry is *not* deleted (the cache slot is unchanged)
and the call is *not* re-issued on the live path (zero backing invocations),
contrary to the claim. -/
theorem c4_counterexample :
    allm_call (fun _ => .error ⟨("x.y"), ("boom")⟩) false 2 (some ⟨true, []⟩) true
        (some ⟨("not json"), false, false, false, none⟩) 0 =
      ⟨.error (.parseError .decodeError),
        some ⟨("not json"), false, false, false, none⟩, 0⟩ ∧
    (allm_call (fun _ => .error ⟨("x.y"), ("boom")⟩) false 2 (some ⟨true, []⟩) true
        (some ⟨("not json"), false, false, false, none⟩) 0).cache ≠ none ∧
    (allm_call (fun _ => .error ⟨("x.y"), ("boom")⟩) false 2 (some ⟨true, []⟩) true
        (some ⟨("not json"), false, false, false, none⟩) 0).calls = 0 := by
  refine ⟨rfl, ?_, rfl⟩
  intro h
  rw [show (allm_call (fun _ => .error ⟨("x.y"), ("boom")⟩) false 2
    (some ⟨true, []⟩) true (some ⟨("not json"), false, false, false, none⟩) 0).cache =
    some ⟨("not json"), false, false, false, none⟩ from rfl] at h
  exact Option.noConfusion h

/-- **C4** — amended.  Self-healing happens only on the live path: (i) a
cache-hit response whose text fails `parse_json` raises with the entry intact
and no backing invocation (the hit path sets the remaining budget to 0);
(ii) on the live path, a response failing strict parsing with budget
remaining has its freshly written entry deleted and the whole call re-issued
— concretely, a backing function answering malformed text twice and valid
JSON on the third call, under `retries = 2` and `file_cache`, ends with the
parsed value, three backing invocations, and the valid response cached. -/
theorem c4_amended :
    (∀ (call : Nat → Except PyExn LLMResponse) sm retries pj (cc : LLMResponse)
      idx pe, parse_json cc.content pj.raise_errors pj.required_fields = .error pe →
      allm_call call sm retries (some pj) true (some cc) idx =
        ⟨.error (.parseError pe), some cc, 0⟩) ∧
    allm_call (fun i => .ok ⟨if i < 2 then ("not json") else ("\x7b\"a\": 1\x7d"),
        false, false, false, none⟩) false 2 (some ⟨true, []⟩) true none 0 =
      ⟨.ok (.parsed (.vdict [(("a"), .vint 1)])
          ⟨("\x7b\"a\": 1\x7d"), false, true, true, none⟩),
        some ⟨("\x7b\"a\": 1\x7d"), false, true, true, none⟩, 3⟩ := by
  refine ⟨?_, rfl⟩
  intro call sm retries pj cc idx pe h
  simp [allm_call, allm_go, h]

/-- **C4** — witness for the amended statement. -/
theorem c4_amended_witness :
    allm_call (fun _ => .error ⟨("x.y"), ("boom")⟩) false 5 (some ⟨true, []⟩) true
        (some ⟨("not json"), false, false, false, none⟩) 0 =
      ⟨.error (.parseError .decodeError),
        some ⟨("not json"), false, false, false, none⟩, 0⟩ :=
  c4_amended.1 (fun _ => .error ⟨("x.y"), ("boom")⟩) false 5 ⟨true, []⟩
    ⟨("not json"), false, false, false, none⟩ 0 .decodeError rfl

/-- A successful retry loop returns a response produced by some backing
invocation. -/
theorem llm_retry_go_ok_call (call : Nat → Except PyExn LLMResponse) :
    ∀ t idx r tr n, llm_retry_go call t idx = (.ok (r, tr), n) →
      ∃ i, call i = .ok r := by
  intro t
  induction t with
  | zero => intro idx r tr n h; simp [llm_retry_go] at h
  | succ t ih =>
    intro idx r tr n h
    rw [llm_retry_go] at h
    cases hc : call idx with
    | ok rr =>
      rw [hc] at h
      simp at h
      exact ⟨idx, by rw [hc, h.1.1]⟩
    | error e =>
      rw [hc] at h
      dsimp only at h
      by_cases hcond : t = 0 ∨ isTermConv (convert_exception e) = true
      · rw [if_pos hcond] at h
        split at h <;> simp_all
      · rw [if_neg hcond] at h
        have h1 : (llm_retry_go call t (idx + 1)).1 = .ok (r, tr) := by
          simpa using congrArg Prod.fst h
        exact ih (idx + 1) r tr (llm_retry_go call t (idx + 1)).2 (Prod.ext h1 rfl)

/-- Helper for C5: `allm` (at any fuel) never attaches `_retry_callback`:
if backing responses and any cached entry carry none, so does the response
of every successful `allm` outcome. -/
theorem allm_go_no_retry_callback (call : Nat → Except PyExn LLMResponse)
    (sm : Bool) (hcall : ∀ i r, call i = .ok r → r.retry_callback = none) :
    ∀ fuel retries pj fc (cache : Option LLMResponse) idx o,
      (∀ cc, cache = some cc → cc.retry_callback = none) →
      (allm_go call sm fuel retries pj fc cache idx).out = .ok o →
      o.response.retry_callback = none := by
  intro fuel
  induction fuel with
  | zero => intro retries pj fc cache idx o _ h; simp [allm_go] at h
  | succ fuel ih =>
    intro retries pj fc cache idx o hcache h
    cases fc <;> cases cache <;> simp only [allm_go] at h
    case true.some cc =>
      have hcc : cc.retry_callback = none := hcache cc rfl
      cases pj with
      | none =>
        simp at h
        rw [← h]
        simpa [PipeOut.response] using hcc
      | some pj =>
        rcases hp : parse_json cc.content pj.raise_errors pj.required_fields with
          pe | v <;> simp [hp] at h
        rw [← h]
        simpa [PipeOut.response] using hcc
    all_goals {
      rcases hloop : llm_retry_go call (retries + 1) idx with ⟨res, n⟩
      rw [hloop] at h
      cases res with
      | error r => simp at h
      | ok rt =>
        obtain ⟨r, tr⟩ := rt
        obtain ⟨i, hi⟩ := llm_retry_go_ok_call call (retries + 1) idx r tr n hloop
        have hr : r.retry_callback = none := hcall i r hi
        dsimp only at h
        cases pj with
        | none =>
          simp at h
          rw [← h]
          simpa [PipeOut.response] using hr
        | some pj =>
          dsimp only at h
          rcases hp : parse_json r.content pj.raise_errors pj.required_fields with
            pe | v
          · rw [hp] at h
            dsimp only at h
            by_cases htr : 0 < tr
            · rw [if_pos htr] at h
              refine ih (tr - 1) (some pj) _ _ (idx + n) o ?_ h
              intro cc hcc
              first
              | exact Option.noConfusion hcc
              | exact hcache cc hcc
            · rw [if_neg htr] at h
              simp at h
          · rw [hp] at h
            simp at h
            rw [← h]
            simpa [PipeOut.response] using hr
    }

end Microcore

namespace Microcore

/-- **C5** — counterexample.  A plain successful `llm` call with the default
`retries = 0` returns a response with no `_retry_callback`: the attribute is
set only when `tries > 0` after the loop, and `tries` is 0 here — so not
every returned Response carries a resumable retry continuation. -/
theorem c5_counterexample :
    llm_call (fun _ => .ok ⟨("ok"), false, false, false, none⟩) false 0 none
        false none 0 =
      ⟨.ok (.resp ⟨("ok"), false, true, true, none⟩), none, 1⟩ ∧
    (PipeOut.resp ⟨("ok"), false, true, true, none⟩).response.retry_callback = none :=
  ⟨rfl, rfl⟩

/-- **C5** — amended.  Only the synchronous `llm` attaches `_retry_callback`,
and only when the retry loop ends with remaining budget `tries > 0` (the
closure captures `retries = tries - 1`): (i) a cache-hit response keeps
whatever the cached entry carried (entries are cached before the attribute is
set, hence carry none); (ii) on the live path the returned response carries
`some (tries - 1)` if `tries > 0` and the backing response's own value
otherwise; (iii) `allm` never attaches it on any path. -/
theorem c5_amended :
    (∀ (call : Nat → Except PyExn LLMResponse) sm retries pj (cc : LLMResponse)
      idx o, (llm_call call sm retries pj true (some cc) idx).out = .ok o →
      o.response.retry_callback = cc.retry_callback) ∧
    (∀ (call : Nat → Except PyExn LLMResponse) sm retries pj idx r tr n o,
      llm_retry_go call (retries + 1) idx = (.ok (r, tr), n) →
      (llm_call call sm retries pj false none idx).out = .ok o →
      o.response.retry_callback = if 0 < tr then some (tr - 1) else r.retry_callback) ∧
    (∀ (call : Nat → Except PyExn LLMResponse) sm retries pj fc cache idx o,
      (∀ i r, call i = .ok r → r.retry_callback = none) →
      (∀ cc, cache = some cc → cc.retry_callback = none) →
      (allm_call call sm retries pj fc cache idx).out = .ok o →
      o.response.retry_callback = none) := by
  refine ⟨?_, ?_, ?_⟩
  · intro call sm retries pj cc idx o h
    have h0 : ¬ ((0 : Nat) > 0) := by omega
    simp only [llm_call, llm_tail, if_neg h0] at h
    cases pj with
    | none =>
      simp at h
      rw [← h]
      rfl
    | some pj =>
      dsimp only at h
      split at h
      · simp at h
        rw [← h]
        rfl
      · simp at h
  · intro call sm retries pj idx r tr n o hloop h
    simp only [llm_call] at h
    rw [hloop] at h
    by_cases htr : 0 < tr
    · rw [if_pos htr]
      simp only [llm_tail, gt_iff_lt, if_pos htr] at h
      cases pj with
      | none =>
        simp at h
        rw [← h]
        rfl
      | some pj =>
        dsimp only at h
        split at h
        · simp at h
          rw [← h]
          rfl
        · simp at h
    · rw [if_neg htr]
      simp only [llm_tail, gt_iff_lt, if_neg htr] at h
      cases pj with
      | none =>
        simp at h
        rw [← h]
        rfl
      | some pj =>
        dsimp only at h
        split at h
        · simp at h
          rw [← h]
          rfl
        · simp at h
  · intro call sm retries pj fc cache idx o hcall hcache h
    exact allm_go_no_retry_callback call sm hcall (retries + 1) retries pj fc
      cache idx o hcache h

/-- **C5** — witness: a cache-hit response keeps the (none) cached value; a
live success with `retries = 2` carries `some 1`; an `allm` success carries
none. -/
theorem c5_amended_witness :
    ((PipeOut.resp ⟨("c"), true, false, false, none⟩).response.retry_callback =
      (⟨("c"), false, false, false, none⟩ : LLMResponse).retry_callback) ∧
    ((PipeOut.resp ⟨("ok"), false, true, true, some 1⟩).response.retry_callback =
      if 0 < 2 then some (2 - 1) else none) ∧
    ((PipeOut.resp ⟨("ok"), false, true, true, none⟩).response.retry_callback = none) :=
  ⟨c5_amended.1 (fun _ => .error ⟨("x"), ("y")⟩) false 3 none
      ⟨("c"), false, false, false, none⟩ 0
      (.resp ⟨("c"), true, false, false, none⟩) rfl,
    c5_amended.2.1 (fun _ => .ok ⟨("ok"), false, false, false, none⟩) false 2 none 0
      ⟨("ok"), false, false, false, none⟩ 2 1
      (.resp ⟨("ok"), false, true, true, some 1⟩) rfl rfl,
    c5_amended.2.2 (fun _ => .ok ⟨("ok"), false, false, false, none⟩) false 0 none
      false none 0 (.resp ⟨("ok"), false, true, true, none⟩)
      (fun _ r h => by cases h; rfl) (fun _ h => Option.noConfusion h) rfl⟩

end Microcore

namespace Microcore

theorem strEmptyAppend (s : String) : ("") ++ s = s := by
  cases s
  simp only [HAppend.hAppend, Append.append, String.append]
  simp

/-- The accumulator after folding the stream state machine over `chunks` is
the starting accumulator followed by the concatenation of the accepted
pieces (computed from the starting hiding flag). -/
theorem stream_fold_text (bm em : String) :
    ∀ (chunks : List String) (st : StreamState),
      (chunks.foldl (processChunk bm em) st).text =
        st.text ++ concatAll (acceptedPieces bm em st.is_hiding chunks) := by
  intro chunks
  induction chunks with
  | nil =>
    intro st
    simp [acceptedPieces, concatAll, strAppendEmpty]
  | cons c rest ih =>
    intro st
    rw [List.foldl_cons, ih (processChunk bm em st c)]
    by_cases hc0 : c = ("")
    · simp [processChunk, acceptedPieces, hc0]
    · by_cases hnh : bm ≠ ("") ∧ em ≠ ("")
      · by_cases hcb : c = bm
        · simp [processChunk, acceptedPieces, hc0, hnh, hcb]
        · by_cases hh : st.is_hiding = true
          · by_cases hce : c = em
            · subst hce
              simp [processChunk, acceptedPieces, hc0, hnh, hcb, hh, concatAll,
                strAppendEmpty, strAppendAssoc]
            · simp [processChunk, acceptedPieces, hc0, hnh, hcb, hh, hce]
          · simp [processChunk, acceptedPieces, hc0, hnh, hcb, hh, concatAll,
              strAppendAssoc]
      · simp [processChunk, acceptedPieces, hc0, hnh, concatAll, strAppendAssoc]

/-- With no marker chunks present, the accepted pieces concatenate to the
whole chunk sequence (empty chunks contribute nothing either way). -/
theorem acceptedPieces_no_marker (bm em : String) :
    ∀ chunks : List String, (∀ c ∈ chunks, c ≠ bm ∧ c ≠ em) →
      concatAll (acceptedPieces bm em false chunks) = concatAll chunks := by
  intro chunks
  induction chunks with
  | nil => intro _; rfl
  | cons c rest ih =>
    intro hno
    have hc := hno c (List.mem_cons_self c rest)
    have hrest : ∀ d ∈ rest, d ≠ bm ∧ d ≠ em :=
      fun d hd => hno d (List.mem_cons_of_mem c hd)
    have ihr := ih hrest
    have hcons : ∀ (x : String) (l : List String),
        concatAll (x :: l) = x ++ concatAll l := fun x l => rfl
    by_cases hc0 : c = ("")
    · have ha : acceptedPieces bm em false (c :: rest) =
          acceptedPieces bm em false rest := by
        simp [acceptedPieces, hc0]
      rw [ha, ihr, hcons, hc0, strEmptyAppend]
    · by_cases hnh : bm ≠ ("") ∧ em ≠ ("")
      · have ha : acceptedPieces bm em false (c :: rest) =
            c :: acceptedPieces bm em false rest := by
          simp [acceptedPieces, hc0, hnh, hc.1]
        rw [ha, hcons, ihr, hcons]
      · have ha : acceptedPieces bm em false (c :: rest) =
            c :: acceptedPieces bm em false rest := by
          simp [acceptedPieces, hc0, hnh]
        rw [ha, hcons, ihr, hcons]

/-- **C3** — confirmed.  The assembled text equals the ordered concatenation
of exactly the pieces accepted in the `NORMAL` state after hidden-segment
removal; with no marker chunks present it is the concatenation of all
chunks; and for `["A", BEGIN, "secret", END, "B"]` the text is exactly
`"AB"`. -/
theorem c3_stream_text :
    (∀ bm em chunks, (∀ c ∈ chunks, c ≠ bm ∧ c ≠ em) →
      (process_streamed_response bm em chunks).text = concatAll chunks) ∧
    (∀ bm em chunks, (process_streamed_response bm em chunks).text =
      concatAll (acceptedPieces bm em false chunks)) ∧
    process_streamed_response ("<think>") ("</think>")
      [("A"), ("<think>"), ("secret"), ("</think>"), ("B")] =
      ⟨("AB"), false, [("A"), (""), ("B")]⟩ := by
  have h2 : ∀ bm em chunks, (process_streamed_response bm em chunks).text =
      concatAll (acceptedPieces bm em false chunks) := by
    intro bm em chunks
    have h := stream_fold_text bm em chunks ⟨(""), false, []⟩
    simpa [process_streamed_response, strEmptyAppend] using h
  refine ⟨?_, h2, rfl⟩
  intro bm em chunks hno
  rw [h2 bm em chunks, acceptedPieces_no_marker bm em chunks hno]

/-- **C3** — witness: a marker-free sequence concatenates in order. -/
theorem c3_stream_text_witness :
    (process_streamed_response ("<think>") ("</think>") [("A"), ("B")]).text =
      concatAll [("A"), ("B")] :=
  c3_stream_text.1 ("<think>") ("</think>") [("A"), ("B")] (by decide)

end Microcore
